import Mathlib

/-!
Shallow embedding of the rlite Normal IPC process data-transfer core
(src/kernel/normal.c) and verification of its specification claims.

Modelling conventions:
- 64-bit sequence numbers are modelled as Nat; the one place where the C
  code relies on uint64 wrap-around (the subtraction in seqq_pop_many and
  the `rcv_lwe - 1` in sdu_rx_sv_update) uses the explicit wrap-around
  subtraction `wsub` below.
- Kernel list nodes in the retransmission queue are identified by their
  sequence number (the pointer comparisons `cur == dtp->rtx_tmr_next` in C
  become seqnum comparisons); this is justified by the strict-sortedness
  invariant of rtxq proved below, which makes seqnums unique identifiers.
- Memory allocation (rlite_buf_clone, rlite_buf_alloc_ctrl) and the PCI
  push/pop operations live outside src/ (rlite-kernel.h); following the
  spec they are modelled as fallible operations whose success is an
  oracle input (a list of Bools, consumed head first, empty = success).
- jiffies is a Nat parameter `now`; msecs_to_jiffies is the identity
  (the time unit of the model is milliseconds).
- Logging macros (PD/PI/RPD/NPD) and the purely-logging classification of
  received PDUs (normal.c lines 1052-1069) have no state effect and are
  not modelled.
-/

namespace Rlite

/-- Wrap-around subtraction of 64-bit unsigned integers, for operands below
2^64: wsub a b is the Nat value of (uint64_t)(a - b). -/
def wsub (a b : Nat) : Nat :=
  if b ≤ a then a - b else a + (2 ^ 64 - b)

/-- Value of a uint64_t field initialised with -1 in the C source
(last_seq_num_sent, max_seq_num_rcvd in rlite_normal_flow_init). -/
def seqInvalid : Nat := 2 ^ 64 - 1

/-- Allocation / PCI oracle: take the next outcome, defaulting to success
when the oracle list is exhausted. -/
def takeOra : List Bool → Bool × List Bool
  | [] => (true, [])
  | b :: r => (b, r)

/-- PDU buffer (struct rlite_buf together with the DT PCI stamped on it).
`len` is the payload length used by the byte counters, `drf` the low bit of
pdu_flags, `rtx_jiffies` the retransmission deadline used while the buffer
sits in rtxq. -/
structure Buf where
  seqnum : Nat
  len : Nat
  drf : Bool := false
  rtx_jiffies : Nat := 0
deriving DecidableEq, Repr

/-- Per-flow configuration (struct rina_flow_config / dtcp_config fields
read by normal.c). `fc_win` is `fc.fc_type == RLITE_FC_T_WIN`; `hasUpper`
models `flow->upper.ipcp != NULL` on the receive path. -/
structure FlowCfg where
  dtcp_present : Bool := false
  in_order_delivery : Bool := false
  max_sdu_gap : Nat := 0
  flow_control : Bool := false
  fc_win : Bool := false
  initial_credit : Nat := 0
  max_cwq_len : Nat := 0
  rtx_control : Bool := false
  initial_tr : Nat := 0
  data_rxms_max : Nat := 0
  initial_a : Nat := 0
  mpl : Nat := 0
  hasUpper : Bool := false
deriving DecidableEq, Repr

/-- Per-flow statistics counters (struct rl_flow_stats). -/
structure Stats where
  tx_pkt : Nat := 0
  tx_byte : Nat := 0
  tx_err : Nat := 0
  rx_pkt : Nat := 0
  rx_byte : Nat := 0
  rx_err : Nat := 0
deriving DecidableEq, Repr

/-- DTP state (struct dtp), the per-flow state protected by dtp->lock.
The three timers are modelled by their expiry times; only the rtx timer
needs a pending bit (rlite_rtxq_push tests timer_pending). rtx_tmr_next
holds the seqnum of the rtxq entry the timer is armed for. -/
structure Dtp where
  set_drf : Bool
  next_seq_num_to_send : Nat
  snd_lwe : Nat
  snd_rwe : Nat
  last_seq_num_sent : Nat
  rcv_lwe : Nat
  rcv_lwe_priv : Nat
  rcv_rwe : Nat
  max_seq_num_rcvd : Nat
  last_snd_data_ack : Nat
  next_snd_ctl_seq : Nat
  last_ctrl_seq_num_rcvd : Nat
  mpl_r_a : Nat
  rtx_tmr_int : Nat
  max_cwq_len : Nat
  max_rtxq_len : Nat
  cwq : List Buf
  cwq_len : Nat
  rtxq : List Buf
  rtxq_len : Nat
  seqq : List Buf
  seqq_len : Nat
  rtx_tmr_next : Option Nat
  rtx_tmr_pending : Bool
  rtx_tmr_expiry : Nat
  snd_inact_expiry : Nat
  rcv_inact_expiry : Nat
deriving DecidableEq, Repr

/-- Flow state: DTP state plus statistics. -/
structure Flow where
  dtp : Dtp
  stats : Stats
deriving DecidableEq, Repr

/-- MPL default in milliseconds. Modelled from the spec: the constant
MPL_MSECS_DEFAULT is declared outside src/ (rlite-kernel.h); spec section 6
fixes the default to 10000 ms. -/
def MPL_MSECS_DEFAULT : Nat := 10000

def RTX_MSECS_DEFAULT : Nat := 1000

def DATA_RXMS_MAX_DEFAULT : Nat := 10

def SEQQ_MAX_LEN : Nat := 64

def RMTQ_MAX_LEN : Nat := 64

/-- rlite_normal_flow_init (normal.c lines 193-266): initial DTP state of a
freshly configured flow. -/
def flow_init (cfg : FlowCfg) : Flow :=
  let initial_tr :=
    if cfg.rtx_control ∧ cfg.initial_tr = 0 then RTX_MSECS_DEFAULT
    else cfg.initial_tr
  let data_rxms :=
    if cfg.rtx_control ∧ cfg.data_rxms_max = 0 then DATA_RXMS_MAX_DEFAULT
    else cfg.data_rxms_max
  let mpl := if cfg.mpl = 0 then MPL_MSECS_DEFAULT else cfg.mpl
  { dtp :=
    { set_drf := true
      next_seq_num_to_send := 0
      snd_lwe := 0
      snd_rwe := if cfg.fc_win then cfg.initial_credit else 0
      last_seq_num_sent := seqInvalid
      rcv_lwe := 0
      rcv_lwe_priv := 0
      rcv_rwe := if cfg.fc_win then cfg.initial_credit else 0
      max_seq_num_rcvd := seqInvalid
      last_snd_data_ack := 0
      next_snd_ctl_seq := 0
      last_ctrl_seq_num_rcvd := 0
      mpl_r_a := mpl + initial_tr * data_rxms + cfg.initial_a
      rtx_tmr_int := initial_tr
      max_cwq_len := if cfg.fc_win then cfg.max_cwq_len else 0
      max_rtxq_len := if cfg.rtx_control then 64 else 0
      cwq := []
      cwq_len := 0
      rtxq := []
      rtxq_len := 0
      seqq := []
      seqq_len := 0
      rtx_tmr_next := none
      rtx_tmr_pending := false
      rtx_tmr_expiry := 0
      snd_inact_expiry := 0
      rcv_inact_expiry := 0 }
    stats := {} }

/-- rlite_rtxq_push (normal.c lines 374-401): clone rb with a fresh
deadline, append the clone to rtxq, and arm the rtx timer at the clone's
deadline if it is not already pending. `allocOk` is the outcome of
rlite_buf_clone; on failure the state is unchanged and the Bool result is
false (-ENOMEM). -/
def rtxq_push (now : Nat) (allocOk : Bool) (rb : Buf) (f : Flow) :
    Flow × Bool :=
  if allocOk then
    let crb : Buf := { rb with rtx_jiffies := now + f.dtp.rtx_tmr_int }
    let f :=
      { f with dtp :=
        { f.dtp with rtxq := f.dtp.rtxq ++ [crb],
                     rtxq_len := f.dtp.rtxq_len + 1 } }
    if f.dtp.rtx_tmr_pending then (f, true)
    else
      ({ f with dtp :=
         { f.dtp with rtx_tmr_next := some crb.seqnum,
                      rtx_tmr_pending := true,
                      rtx_tmr_expiry := crb.rtx_jiffies } }, true)
  else (f, false)

/-- Result of rlite_normal_sdu_write. `wouldBlock` is -EAGAIN (buffer kept
by the caller), `noSpace` is -ENOSPC (buffer freed), `oomErr` is -ENOMEM
from the rtxq clone (buffer freed), `sentOk rb` means the stamped buffer rb
is dispatched through rmt_tx, `queuedOk` means ownership passed to cwq and
0 is returned. -/
inductive WriteRes where
  | wouldBlock
  | noSpace
  | oomErr
  | sentOk (rb : Buf)
  | queuedOk
deriving DecidableEq, Repr

/-- Admission condition of rlite_normal_sdu_write (normal.c lines 419-423):
backpressure iff (window FC configured and next_seq_num_to_send > snd_rwe
and cwq_len >= max_cwq_len) or (rtx control configured and rtxq_len >=
max_rtxq_len). -/
def writeBlocked (cfg : FlowCfg) (d : Dtp) : Prop :=
  (cfg.fc_win ∧ d.snd_rwe < d.next_seq_num_to_send ∧
     d.max_cwq_len ≤ d.cwq_len) ∨
  (cfg.rtx_control ∧ d.max_rtxq_len ≤ d.rtxq_len)

instance (cfg : FlowCfg) (d : Dtp) : Decidable (writeBlocked cfg d) := by
  unfold writeBlocked; infer_instance

/-- PCI stamping effect of rlite_normal_sdu_write (normal.c lines 440-454):
seqnum = next_seq_num_to_send++, tx counters incremented, set_drf
cleared. -/
def writeStamped (rb : Buf) (f : Flow) : Flow :=
  { f with
    dtp := { f.dtp with next_seq_num_to_send := rb.seqnum + 1,
                        set_drf := false },
    stats := { f.stats with tx_pkt := f.stats.tx_pkt + 1,
                            tx_byte := f.stats.tx_byte + rb.len } }

/-- Closed-window-queue insertion of rlite_normal_sdu_write (normal.c
lines 462-471). -/
def writePark (rb : Buf) (f : Flow) : Flow :=
  { f with dtp := { f.dtp with cwq := f.dtp.cwq ++ [rb],
                               cwq_len := f.dtp.cwq_len + 1 } }

/-- Window advance of rlite_normal_sdu_write (normal.c lines 455-458 and
472-479): snd_lwe = next_seq_num_to_send, last_seq_num_sent = seqnum. -/
def writeAdvance (sn : Nat) (f : Flow) : Flow :=
  { f with dtp := { f.dtp with snd_lwe := sn + 1,
                               last_seq_num_sent := sn } }

/-- Counter rewind of rlite_normal_sdu_write on a failed rtxq clone
(normal.c lines 486-488). -/
def writeRewind (rb : Buf) (f : Flow) : Flow :=
  { f with stats := { f.stats with tx_pkt := f.stats.tx_pkt - 1,
                                   tx_byte := f.stats.tx_byte - rb.len,
                                   tx_err := f.stats.tx_err + 1 } }

/-- Inactivity-timer arming of rlite_normal_sdu_write (normal.c lines
415-417). -/
def writeArm (cfg : FlowCfg) (now : Nat) (f : Flow) : Flow :=
  if cfg.dtcp_present then
    { f with dtp :=
      { f.dtp with snd_inact_expiry := now + 3 * f.dtp.mpl_r_a } }
  else f

/-- Body of rlite_normal_sdu_write after the inactivity timer has been
re-armed (normal.c lines 419-504). -/
def sdu_write_core (cfg : FlowCfg) (now : Nat) (pushOk allocOk : Bool)
    (payload : Nat) (f : Flow) : Flow × WriteRes :=
  if writeBlocked cfg f.dtp then (f, .wouldBlock)
  else if pushOk then
    let sn := f.dtp.next_seq_num_to_send
    let rb : Buf := { seqnum := sn, len := payload, drf := f.dtp.set_drf }
    let f := writeStamped rb f
    if cfg.dtcp_present then
      if cfg.fc_win ∧ f.dtp.snd_rwe < rb.seqnum then
        -- PDU not in the sender window: append to the closed window queue
        (writePark rb f, .queuedOk)
      else
        let f := if cfg.fc_win then writeAdvance sn f else f
        if cfg.rtx_control then
          let r := rtxq_push now allocOk rb f
          if r.2 then (r.1, .sentOk rb)
          else
            -- clone failed: rewind the tx counters and free the buffer
            (writeRewind rb r.1, .oomErr)
        else (f, .sentOk rb)
    else (writeAdvance sn f, .sentOk rb)
  else
    ({ f with stats := { f.stats with tx_err := f.stats.tx_err + 1 } },
     .noSpace)

/-- rlite_normal_sdu_write (normal.c lines 403-504). `pushOk` is the
outcome of rlite_buf_pci_push, `allocOk` the outcome of the rtxq clone,
`payload` the buffer length rb->len. -/
def sdu_write (cfg : FlowCfg) (now : Nat) (pushOk allocOk : Bool)
    (payload : Nat) (f : Flow) : Flow × WriteRes :=
  sdu_write_core cfg now pushOk allocOk payload (writeArm cfg now f)

/-- ACK subtype carried in the low bits of a control pdu_type
(PDU_T_ACK_MASK). The numeric bit layout of pdu_type is declared outside
src/; following spec section 3 the bitmap over {CTRL, ACK_BIT, FC_BIT} and
the subtype are modelled as separate fields of CtrlPdu. -/
inductive AckSubtype where
  | ack
  | nack
  | sack
  | snack
deriving DecidableEq, Repr

/-- Control PCI (struct rina_pci_ctrl). `isCtrl` models
(pdu_type & PDU_T_CTRL_MASK) == PDU_T_CTRL_MASK; `fcBit` and `ackBit` the
PDU_T_FC_BIT and PDU_T_ACK_BIT flags; `subtype` the PDU_T_ACK_MASK bits. -/
structure CtrlPdu where
  isCtrl : Bool := true
  fcBit : Bool := false
  ackBit : Bool := false
  subtype : AckSubtype := .ack
  seqnum : Nat := 0
  last_ctrl_seq_num_rcvd : Nat := 0
  ack_nack_seq_num : Nat := 0
  new_rwe : Nat := 0
  new_lwe : Nat := 0
  my_rwe : Nat := 0
  my_lwe : Nat := 0
deriving DecidableEq, Repr

/-- ctrl_pdu_alloc (normal.c lines 662-689): allocate and stamp an outgoing
control PDU, consuming next_snd_ctl_seq. `allocOk` is the outcome of
rlite_buf_alloc_ctrl; on failure nothing changes and none is returned. -/
def ctrl_pdu_alloc (allocOk : Bool) (fcBit ackBit : Bool)
    (sub : AckSubtype) (ack_nack : Nat) (f : Flow) :
    Flow × Option CtrlPdu :=
  if allocOk then
    ({ f with dtp :=
       { f.dtp with next_snd_ctl_seq := f.dtp.next_snd_ctl_seq + 1 } },
     some { isCtrl := true, fcBit := fcBit, ackBit := ackBit,
            subtype := sub,
            seqnum := f.dtp.next_snd_ctl_seq,
            last_ctrl_seq_num_rcvd := f.dtp.last_ctrl_seq_num_rcvd,
            ack_nack_seq_num := ack_nack,
            new_rwe := f.dtp.rcv_rwe, new_lwe := f.dtp.rcv_lwe,
            my_rwe := f.dtp.snd_rwe, my_lwe := f.dtp.snd_lwe })
  else (f, none)

/-- sdu_rx_sv_update (normal.c lines 694-738): update rcv_rwe under window
flow control, then synthesise an ACK (rtx control), an FC-only control PDU
(flow control alone), or nothing. -/
def sdu_rx_sv_update (cfg : FlowCfg) (allocOk : Bool) (f : Flow) :
    Flow × Option CtrlPdu :=
  let f :=
    if cfg.flow_control ∧ cfg.fc_win then
      { f with dtp :=
        { f.dtp with rcv_rwe := f.dtp.rcv_lwe + cfg.initial_credit } }
    else f
  if cfg.rtx_control then
    ctrl_pdu_alloc allocOk cfg.flow_control true .ack
      (wsub f.dtp.rcv_lwe 1) f
  else if cfg.flow_control then
    ctrl_pdu_alloc allocOk true false .ack 0 f
  else (f, none)

/-- seqq insertion scan of seqq_push (normal.c lines 757-775): insert rb
before the first entry with a larger seqnum; none signals a duplicate
amongst the gaps (rb is freed). -/
def seqq_insert (rb : Buf) : List Buf → Option (List Buf)
  | [] => some [rb]
  | c :: rest =>
    if rb.seqnum < c.seqnum then some (rb :: c :: rest)
    else if rb.seqnum = c.seqnum then none
    else (seqq_insert rb rest).map (c :: ·)

/-- seqq_push (normal.c lines 743-778): drop on overrun, insertion-sort by
seqnum, silently drop duplicates. -/
def seqq_push (rb : Buf) (f : Flow) : Flow :=
  if SEQQ_MAX_LEN ≤ f.dtp.seqq_len then f
  else
    match seqq_insert rb f.dtp.seqq with
    | none => f
    | some q =>
      { f with dtp :=
        { f.dtp with seqq := q, seqq_len := f.dtp.seqq_len + 1 } }

/-- Scan loop of seqq_pop_many (normal.c lines 786-797) over the seqq list,
threading rcv_lwe_priv. Returns (remaining seqq, popped buffers in scan
order, final rcv_lwe_priv). The C subtraction pci->seqnum - rcv_lwe_priv is
uint64 arithmetic, hence wsub. -/
def seqq_pop_loop (gap : Nat) : List Buf → Nat → List Buf × List Buf × Nat
  | [], lwe => ([], [], lwe)
  | q :: rest, lwe =>
    if wsub q.seqnum lwe ≤ gap then
      let r := seqq_pop_loop gap rest (q.seqnum + 1)
      (r.1, q :: r.2.1, r.2.2)
    else
      let r := seqq_pop_loop gap rest lwe
      (q :: r.1, r.2.1, r.2.2)

/-- seqq_pop_many (normal.c lines 780-798). -/
def seqq_pop_many (gap : Nat) (f : Flow) : List Buf × Flow :=
  let r := seqq_pop_loop gap f.dtp.seqq f.dtp.rcv_lwe_priv
  (r.2.1,
   { f with dtp :=
     { f.dtp with seqq := r.1,
                  seqq_len := f.dtp.seqq_len - r.2.1.length,
                  rcv_lwe_priv := r.2.2 } })

/-- ACK removal loop of sdu_rx_ctrl (normal.c lines 880-909) over the rtxq
list. Arguments: acked seqnum A, rtxq, current rtx_tmr_next (as a seqnum).
Returns (remaining rtxq, number removed, new rtx_tmr_next, the buffer the
rtx timer is re-armed at, if any). -/
def ackLoop (A : Nat) :
    List Buf → Option Nat → List Buf × Nat × Option Nat × Option Buf
  | [], nxt => ([], 0, nxt, none)
  | c :: rest, nxt =>
    if c.seqnum ≤ A then
      let nxt' := if nxt = some c.seqnum then none else nxt
      let r := ackLoop A rest nxt'
      (r.1, r.2.1 + 1, r.2.2)
    else
      match nxt with
      | none => (c :: rest, 0, some c.seqnum, some c)
      | some m => (c :: rest, 0, some m, none)

/-- PDU_T_ACK handling of sdu_rx_ctrl (normal.c lines 879-916): remove all
acked buffers, re-arm the rtx timer at the first survivor when the armed
buffer was removed, and cancel the timer when rtxq drains. -/
def ackPhase (A : Nat) (f : Flow) : Flow :=
  let r := ackLoop A f.dtp.rtxq f.dtp.rtx_tmr_next
  let f :=
    { f with dtp :=
      { f.dtp with rtxq := r.1, rtxq_len := f.dtp.rtxq_len - r.2.1,
                   rtx_tmr_next := r.2.2.1 } }
  let f :=
    match r.2.2.2 with
    | some b =>
      { f with dtp := { f.dtp with rtx_tmr_pending := true,
                                   rtx_tmr_expiry := b.rtx_jiffies } }
    | none => f
  if f.dtp.rtxq.isEmpty then
    { f with dtp := { f.dtp with rtx_tmr_pending := false } }
  else f

/-- cwq drain loop of sdu_rx_ctrl (normal.c lines 856-871): while
snd_lwe < snd_rwe move the head of cwq to the post-lock send list,
advancing last_seq_num_sent = snd_lwe++, cloning into rtxq when rtx control
is on (the return value of rlite_rtxq_push is ignored by the source). The
cwq argument is the current dtp->cwq; the cwq field of the result is
reassembled at the exit points. -/
def drainPop (f : Flow) : Flow :=
  { f with dtp :=
    { f.dtp with cwq_len := f.dtp.cwq_len - 1,
                 last_seq_num_sent := f.dtp.snd_lwe,
                 snd_lwe := f.dtp.snd_lwe + 1 } }

/-- One iteration body of the cwq drain: pop the head out of cwq, advance
last_seq_num_sent = snd_lwe++, and clone into rtxq when rtx control is on
(the return value of rlite_rtxq_push is ignored by the source). -/
def drainStep (cfg : FlowCfg) (now : Nat) (al : List Bool) (q : Buf)
    (f : Flow) : Flow × List Bool :=
  if cfg.rtx_control then
    ((rtxq_push now (takeOra al).1 q (drainPop f)).1, (takeOra al).2)
  else (drainPop f, al)

def cwqDrainGo (cfg : FlowCfg) (now : Nat) :
    List Bool → List Buf → Flow → Flow × List Buf × List Bool
  | al, [], f => ({ f with dtp := { f.dtp with cwq := [] } }, [], al)
  | al, q :: rest, f =>
    if f.dtp.snd_rwe ≤ f.dtp.snd_lwe then
      ({ f with dtp := { f.dtp with cwq := q :: rest } }, [], al)
    else
      let r := drainStep cfg now al q f
      let r2 := cwqDrainGo cfg now r.2 rest r.1
      (r2.1, q :: r2.2.1, r2.2.2)

/-- PDU_T_FC_BIT handling of sdu_rx_ctrl (normal.c lines 838-873): ignore a
window update that would move snd_rwe backwards, otherwise advance snd_rwe
and drain cwq. Returns the drained buffers for post-lock dispatch. -/
def fcPhase (cfg : FlowCfg) (now : Nat) (al : List Bool) (new_rwe : Nat)
    (f : Flow) : Flow × List Buf × List Bool :=
  if new_rwe < f.dtp.snd_rwe then (f, [], al)
  else
    let f := { f with dtp := { f.dtp with snd_rwe := new_rwe } }
    cwqDrainGo cfg now al f.dtp.cwq f

/-- State of sdu_rx_ctrl after the duplicate check accepted the PDU:
last_ctrl_seq_num_rcvd is updated (normal.c line 836) and the FC bit is
processed. -/
def ctrlAccept1 (cfg : FlowCfg) (now : Nat) (al : List Bool) (c : CtrlPdu)
    (f : Flow) : Flow × List Buf × List Bool :=
  let f :=
    { f with dtp := { f.dtp with last_ctrl_seq_num_rcvd := c.seqnum } }
  if c.fcBit then fcPhase cfg now al c.new_rwe f else (f, [], al)

/-- Result of sdu_rx_ctrl. `sent` are the cwq buffers dispatched through
rmt_tx after the lock is released; `accepted` is false when the PDU was
rejected for a bad type or dropped by the duplicate check (in both cases
the flow state is untouched). -/
structure CtrlRxResult where
  flow : Flow
  sent : List Buf
  accepted : Bool
deriving DecidableEq, Repr

/-- sdu_rx_ctrl (normal.c lines 800-946). The duplicate check drops the PDU
iff last_ctrl_seq_num_rcvd is nonzero and seqnum <= last_ctrl_seq_num_rcvd
(line 826); NACK/SACK/SNACK subtypes are logged and ignored. -/
def sdu_rx_ctrl (cfg : FlowCfg) (now : Nat) (al : List Bool) (c : CtrlPdu)
    (f : Flow) : CtrlRxResult :=
  if c.isCtrl then
    if f.dtp.last_ctrl_seq_num_rcvd ≠ 0 ∧
       c.seqnum ≤ f.dtp.last_ctrl_seq_num_rcvd then
      { flow := f, sent := [], accepted := false }
    else
      let r := ctrlAccept1 cfg now al c f
      let f2 :=
        if c.ackBit then
          match c.subtype with
          | .ack => ackPhase c.ack_nack_seq_num r.1
          | _ => r.1
        else r.1
      { flow := f2, sent := r.2.1, accepted := true }
  else { flow := f, sent := [], accepted := false }

/-- Local variable `a` of rlite_normal_sdu_rx (normal.c line 955): the A
timer value used by the drop rule, set to 0 in the source. -/
def aTimer : Nat := 0

/-- Drop rule of rlite_normal_sdu_rx (normal.c lines 1095-1097). -/
def dropRule (cfg : FlowCfg) (gap : Nat) : Prop :=
  (cfg.in_order_delivery ∨ cfg.dtcp_present) ∧ aTimer = 0 ∧
    ¬cfg.rtx_control ∧ cfg.max_sdu_gap < gap

instance (cfg : FlowCfg) (gap : Nat) : Decidable (dropRule cfg gap) := by
  unfold dropRule; infer_instance

/-- Outcome of the data-PDU receive path for the owned buffer:
`delivered bufs` lists the buffers handed to rlite_sdu_rx_flow (the
received buffer first, then any buffers popped from seqq, skipping those
whose PCI pop failed), `dupDropped` is the seqnum < rcv_lwe_priv branch,
`ruleDropped` the QoS drop, `toSeqq` means the buffer was handed to
seqq_push (which may itself drop it on overrun or duplicate). -/
inductive RxOutcome where
  | delivered (bufs : List Buf)
  | dupDropped
  | ruleDropped
  | toSeqq
deriving DecidableEq, Repr

/-- Result of the data-PDU receive path: new flow state, outcome for the
received buffer, and the control PDU to send via rmt_tx, if any. -/
structure RxResult where
  flow : Flow
  outcome : RxOutcome
  crb : Option CtrlPdu
deriving DecidableEq, Repr

/-- Deliver the popped seqq buffers (normal.c lines 1131-1138), skipping
any whose rlite_buf_pci_pop fails; `pops` is the pop oracle. -/
def popDeliver : List Bool → List Buf → List Buf
  | _, [] => []
  | ora, b :: rest =>
    let o := takeOra ora
    if o.1 then b :: popDeliver o.2 rest else popDeliver o.2 rest

/-- DRF branch of rlite_normal_sdu_rx (normal.c lines 1001-1024): first
PDU or new run; rcv_lwe and rcv_lwe_priv are reset to seqnum + 1. -/
def rcvDrf (cfg : FlowCfg) (allocOk : Bool) (pops : List Bool) (rb : Buf)
    (f : Flow) : RxResult :=
  let f :=
    { f with dtp :=
      { f.dtp with rcv_lwe := rb.seqnum + 1,
                   rcv_lwe_priv := rb.seqnum + 1,
                   max_seq_num_rcvd := rb.seqnum } }
  let r := sdu_rx_sv_update cfg allocOk f
  let f :=
    { r.1 with stats :=
      { r.1.stats with rx_pkt := r.1.stats.rx_pkt + 1,
                       rx_byte := r.1.stats.rx_byte + rb.len } }
  let o := takeOra pops
  { flow := f,
    outcome := .delivered (if o.1 then [rb] else []),
    crb := r.2 }

/-- Duplicate branch of rlite_normal_sdu_rx (normal.c lines 1027-1049):
seqnum below rcv_lwe_priv; the buffer is freed, and with flow control an
ACK+FC control PDU advertising rcv_lwe is synthesised when rcv_lwe has
reached last_snd_data_ack. -/
def rcvDup (cfg : FlowCfg) (allocOk : Bool) (f : Flow) : RxResult :=
  let f :=
    { f with stats := { f.stats with rx_err := f.stats.rx_err + 1 } }
  if cfg.flow_control ∧ f.dtp.last_snd_data_ack ≤ f.dtp.rcv_lwe then
    let r := ctrl_pdu_alloc allocOk true true .ack f.dtp.rcv_lwe f
    let f :=
      if r.2.isSome then
        { r.1 with dtp :=
          { r.1.dtp with last_snd_data_ack := r.1.dtp.rcv_lwe } }
      else r.1
    { flow := f, outcome := .dupDropped, crb := r.2 }
  else { flow := f, outcome := .dupDropped, crb := none }

/-- QoS-drop branch of rlite_normal_sdu_rx (normal.c lines 1143-1148). -/
def rcvDrop (cfg : FlowCfg) (allocOk : Bool) (f : Flow) : RxResult :=
  let f :=
    { f with stats := { f.stats with rx_err := f.stats.rx_err + 1 } }
  let r := sdu_rx_sv_update cfg allocOk f
  { flow := r.1, outcome := .ruleDropped, crb := r.2 }

/-- Deliver branch of rlite_normal_sdu_rx (normal.c lines 1101-1140):
advance rcv_lwe_priv past the received seqnum, pop the seqq, advance the
advertised rcv_lwe when an upper IPCP is bound, and deliver upward. -/
def rcvDeliver (cfg : FlowCfg) (allocOk : Bool) (pops : List Bool)
    (rb : Buf) (f : Flow) : RxResult :=
  let f :=
    { f with dtp := { f.dtp with rcv_lwe_priv := rb.seqnum + 1 } }
  let pm := seqq_pop_many cfg.max_sdu_gap f
  let r :=
    if cfg.hasUpper then
      let f :=
        { pm.2 with dtp :=
          { pm.2.dtp with rcv_lwe := pm.2.dtp.rcv_lwe_priv } }
      sdu_rx_sv_update cfg allocOk f
    else (pm.2, none)
  let f :=
    { r.1 with stats :=
      { r.1.stats with rx_pkt := r.1.stats.rx_pkt + 1,
                       rx_byte := r.1.stats.rx_byte + rb.len } }
  let o := takeOra pops
  { flow := f,
    outcome := .delivered
      (if o.1 then rb :: popDeliver o.2 pm.1 else []),
    crb := r.2 }

/-- Hold branch of rlite_normal_sdu_rx (normal.c lines 1150-1158): what is
not dropped nor delivered goes in the sequencing queue. -/
def rcvHold (cfg : FlowCfg) (allocOk : Bool) (rb : Buf) (f : Flow) :
    RxResult :=
  let f := seqq_push rb f
  let f :=
    { f with stats :=
      { f.stats with rx_pkt := f.stats.rx_pkt + 1,
                     rx_byte := f.stats.rx_byte + rb.len } }
  let r := sdu_rx_sv_update cfg allocOk f
  { flow := r.1, outcome := .toSeqq, crb := r.2 }

/-- Data-transfer PDU handling of rlite_normal_sdu_rx (normal.c lines
986-1171), after the flow has been resolved and the PDU found to be of
type PDU_T_DT. `allocOk` feeds the control-PDU allocations, `pops` the
rlite_buf_pci_pop outcomes (received buffer first, then the seqq pops; on
a failed pop of the received buffer the seqq pops are abandoned, as the
source jumps to snd_crb). -/
def rcvData (cfg : FlowCfg) (now : Nat) (allocOk : Bool)
    (pops : List Bool) (rb : Buf) (f : Flow) : RxResult :=
  let f :=
    if cfg.dtcp_present then
      { f with dtp :=
        { f.dtp with rcv_inact_expiry := now + 2 * f.dtp.mpl_r_a } }
    else f
  if rb.drf then rcvDrf cfg allocOk pops rb f
  else if rb.seqnum < f.dtp.rcv_lwe_priv then rcvDup cfg allocOk f
  else
    let f :=
      if f.dtp.max_seq_num_rcvd < rb.seqnum then
        { f with dtp := { f.dtp with max_seq_num_rcvd := rb.seqnum } }
      else f
    let gap := wsub rb.seqnum f.dtp.rcv_lwe_priv
    if dropRule cfg gap then rcvDrop cfg allocOk f
    else if gap ≤ cfg.max_sdu_gap then rcvDeliver cfg allocOk pops rb f
    else rcvHold cfg allocOk rb f

/-- rlite_normal_sdu_rx_consumed (normal.c lines 1174-1195): advance the
advertised rcv_lwe past the consumed buffer's seqnum and synthesise a
control PDU via sdu_rx_sv_update. -/
def sdu_rx_consumed (cfg : FlowCfg) (allocOk : Bool) (sn : Nat)
    (f : Flow) : Flow × Option CtrlPdu :=
  let f := { f with dtp := { f.dtp with rcv_lwe := sn + 1 } }
  sdu_rx_sv_update cfg allocOk f

/-- Ring scan of rtx_tmr_cb (normal.c lines 135-171) over the rtxq read in
ring order starting at rtx_tmr_next: bump the deadline of each expired
buffer and clone it for retransmission; stop at the first non-expired
buffer, re-arming the timer there unless it is the buffer the timer was
armed for. Returns (updated ring, clones to send, buffer to re-arm at,
remaining oracle). -/
def rtxScanGo (tint now orig : Nat) :
    List Bool → List Buf → List Buf × List Buf × Option Buf × List Bool
  | al, [] => ([], [], none, al)
  | al, rb :: rest =>
    if rb.rtx_jiffies ≤ now then
      let rb' := { rb with rtx_jiffies := rb.rtx_jiffies + tint }
      let o := takeOra al
      let r := rtxScanGo tint now orig o.2 rest
      (rb' :: r.1, (if o.1 then [rb'] else []) ++ r.2.1, r.2.2)
    else
      (rb :: rest, [],
       (if rb.seqnum = orig then none else some rb), al)

/-- Circular rtxq scan of rtx_tmr_cb: rotate rtxq so that it starts at the
entry rtx_tmr_next identifies, run the ring scan, and rotate back. Returns
(updated rtxq, clones to send, buffer to re-arm at). -/
def rtxRun (tint now : Nat) (al : List Bool) (nx : Nat) (q : List Buf) :
    List Buf × List Buf × Option Buf :=
  let i := q.findIdx (fun b => b.seqnum = nx)
  let ring := q.drop i ++ q.take i
  let r := rtxScanGo tint now nx al ring
  (r.1.drop (q.length - i) ++ r.1.take (q.length - i), r.2.1, r.2.2.1)

/-- rtx_tmr_cb (normal.c lines 114-185): the retransmission timer callback.
Returns the new flow state and the clones dispatched through rmt_tx with
maysleep = false. -/
def rtx_tmr_cb (now : Nat) (al : List Bool) (f : Flow) :
    Flow × List Buf :=
  let f := { f with dtp := { f.dtp with rtx_tmr_pending := false } }
  match f.dtp.rtx_tmr_next with
  | none => (f, [])
  | some nx =>
    let r := rtxRun f.dtp.rtx_tmr_int now al nx f.dtp.rtxq
    let f := { f with dtp := { f.dtp with rtxq := r.1 } }
    match r.2.2 with
    | some b =>
      ({ f with dtp :=
         { f.dtp with rtx_tmr_next := some b.seqnum,
                      rtx_tmr_pending := true,
                      rtx_tmr_expiry := b.rtx_jiffies } }, r.2.1)
    | none => (f, r.2.1)

/-- snd_inact_tmr_cb (normal.c lines 79-103): the sender inactivity timer
only sets set_drf; the other policy slots are empty in the source. -/
def snd_inact_cb (f : Flow) : Flow :=
  { f with dtp := { f.dtp with set_drf := true } }

/-- Result of the lower flow's sdu_write as seen by rmt_tx. -/
inductive LowerWr where
  | ok
  | again
  | errOther
deriving DecidableEq, Repr

/-- Return value of rmt_tx. -/
inductive RmtRet where
  | retOk
  | retAgain
  | retNoRoute
  | retErr
deriving DecidableEq, Repr

/-- Fate of the buffer passed to rmt_tx: in every case ownership is
consumed (delivered, looped back, parked on the deferred-send queue, or
freed) and never returned to the caller. -/
inductive RmtFate where
  | written
  | loopedBack
  | parked
  | droppedFull
  | droppedNoRoute
  | lowerConsumed
  | blockedRetry
deriving DecidableEq, Repr

/-- Retry loop of rmt_tx (normal.c lines 331-363). `first` is the result of
the current lower write, `rest` the results of subsequent attempts while
sleeping; `blockedRetry` marks the fuel-exhaustion artifact of modelling
the unbounded sleeping retry with a finite attempt list. -/
def rmt_tx_loop : LowerWr → List LowerWr → Bool → Nat →
    RmtRet × RmtFate × Nat
  | .ok, _, _, q => (.retOk, .written, q)
  | .errOther, _, _, q => (.retErr, .lowerConsumed, q)
  | .again, rest, maysleep, q =>
    if maysleep then
      match rest with
      | [] => (.retAgain, .blockedRetry, q)
      | a :: r => rmt_tx_loop a r true q
    else if q < RMTQ_MAX_LEN then (.retAgain, .parked, q + 1)
    else (.retAgain, .droppedFull, q)

/-- rmt_tx (normal.c lines 298-371). `routeExists` is the outcome of the
PDUFT lookup, `isSelf` whether remote_addr equals the IPCP address,
`attempts` the results of the lower flow's sdu_write, `rmtq_len` the
deferred-send queue length. Returns the int result, the buffer's fate and
the new rmtq length. -/
def rmt_tx (routeExists isSelf maysleep : Bool) (first : LowerWr)
    (rest : List LowerWr) (rmtq_len : Nat) : RmtRet × RmtFate × Nat :=
  if routeExists then rmt_tx_loop first rest maysleep rmtq_len
  else if isSelf then (.retOk, .loopedBack, rmtq_len)
  else (.retNoRoute, .droppedNoRoute, rmtq_len)

/-- One mutation of the per-flow DTP state by the operations of the normal
IPC process, with arbitrary inputs and oracle outcomes. -/
inductive Step (cfg : FlowCfg) : Flow → Flow → Prop where
  | write (now : Nat) (pushOk allocOk : Bool) (payload : Nat) (f : Flow) :
      Step cfg f (sdu_write cfg now pushOk allocOk payload f).1
  | ctrlRx (now : Nat) (al : List Bool) (c : CtrlPdu) (f : Flow) :
      Step cfg f (sdu_rx_ctrl cfg now al c f).flow
  | dataRx (now : Nat) (allocOk : Bool) (pops : List Bool) (rb : Buf)
      (f : Flow) :
      Step cfg f (rcvData cfg now allocOk pops rb f).flow
  | consumed (allocOk : Bool) (sn : Nat) (f : Flow) :
      Step cfg f (sdu_rx_consumed cfg allocOk sn f).1
  | rtxTimer (now : Nat) (al : List Bool) (f : Flow) :
      Step cfg f (rtx_tmr_cb now al f).1
  | sndInact (f : Flow) : Step cfg f (snd_inact_cb f)

/-- Flow states reachable from flow initialisation. -/
def Reachable (cfg : FlowCfg) (f : Flow) : Prop :=
  Relation.ReflTransGen (Step cfg) (flow_init cfg) f

/-- Seqnums of the retransmission queue, in queue order. -/
def rtxSeqs (f : Flow) : List Nat := f.dtp.rtxq.map Buf.seqnum

/-- Seqnums of the closed window queue, in queue order. -/
def cwqSeqs (f : Flow) : List Nat := f.dtp.cwq.map Buf.seqnum

/-- Sender-side projection of the flow state: the fields the structural
invariant of rtxq and cwq depends on. -/
def TxView (f : Flow) :
    List Buf × List Buf × Nat × Nat × Nat × Option Nat :=
  (f.dtp.rtxq, f.dtp.cwq, f.dtp.next_seq_num_to_send, f.dtp.snd_lwe,
   f.dtp.snd_rwe, f.dtp.rtx_tmr_next)

/-- Structural invariant of the sender-side queues, established by
flow initialisation and preserved by every operation. -/
structure Inv (cfg : FlowCfg) (f : Flow) : Prop where
  rtx_sorted : (rtxSeqs f).Pairwise (· < ·)
  cwq_sorted : (cwqSeqs f).Pairwise (· < ·)
  rtx_lt_cwq : ∀ a ∈ rtxSeqs f, ∀ b ∈ cwqSeqs f, a < b
  rtx_lt_next : ∀ a ∈ rtxSeqs f, a < f.dtp.next_seq_num_to_send
  cwq_lt_next : ∀ b ∈ cwqSeqs f, b < f.dtp.next_seq_num_to_send
  cwq_ge_lwe : ∀ b ∈ cwqSeqs f, f.dtp.snd_lwe ≤ b
  lwe_le_next : f.dtp.snd_lwe ≤ f.dtp.next_seq_num_to_send
  cwq_rwe : f.dtp.cwq ≠ [] → f.dtp.snd_rwe < f.dtp.next_seq_num_to_send
  cwq_win : cfg.fc_win = false ∨ cfg.dtcp_present = false → f.dtp.cwq = []
  tmr_mem : ∀ n, f.dtp.rtx_tmr_next = some n → n ∈ rtxSeqs f

theorem inv_congr {cfg : FlowCfg} {f g : Flow}
    (h : TxView g = TxView f) (hf : Inv cfg f) : Inv cfg g := by
  unfold TxView at h
  obtain ⟨h1, h2, h3, h4, h5, h6⟩ := by
    simpa [Prod.ext_iff] using h
  have hrs : rtxSeqs g = rtxSeqs f := by unfold rtxSeqs; rw [h1]
  have hcs : cwqSeqs g = cwqSeqs f := by unfold cwqSeqs; rw [h2]
  exact ⟨hrs ▸ hf.rtx_sorted, hcs ▸ hf.cwq_sorted,
    by rw [hrs, hcs]; exact hf.rtx_lt_cwq,
    by rw [hrs, h3]; exact hf.rtx_lt_next,
    by rw [hcs, h3]; exact hf.cwq_lt_next,
    by rw [hcs, h4]; exact hf.cwq_ge_lwe,
    by rw [h4, h3]; exact hf.lwe_le_next,
    by rw [h2, h5, h3]; exact hf.cwq_rwe,
    by rw [h2]; exact hf.cwq_win,
    by rw [h6, hrs]; exact hf.tmr_mem⟩

theorem txView_ctrl_pdu_alloc (allocOk fcBit ackBit : Bool)
    (sub : AckSubtype) (an : Nat) (f : Flow) :
    TxView (ctrl_pdu_alloc allocOk fcBit ackBit sub an f).1 = TxView f := by
  unfold ctrl_pdu_alloc; split <;> rfl

@[simp] theorem alloc_rtxq (a fc ak : Bool) (s : AckSubtype) (an : Nat)
    (f : Flow) :
    (ctrl_pdu_alloc a fc ak s an f).1.dtp.rtxq = f.dtp.rtxq :=
  congrArg (·.1) (txView_ctrl_pdu_alloc a fc ak s an f)

@[simp] theorem alloc_cwq (a fc ak : Bool) (s : AckSubtype) (an : Nat)
    (f : Flow) :
    (ctrl_pdu_alloc a fc ak s an f).1.dtp.cwq = f.dtp.cwq :=
  congrArg (·.2.1) (txView_ctrl_pdu_alloc a fc ak s an f)

@[simp] theorem alloc_next (a fc ak : Bool) (s : AckSubtype) (an : Nat)
    (f : Flow) :
    (ctrl_pdu_alloc a fc ak s an f).1.dtp.next_seq_num_to_send =
      f.dtp.next_seq_num_to_send :=
  congrArg (·.2.2.1) (txView_ctrl_pdu_alloc a fc ak s an f)

@[simp] theorem alloc_lwe (a fc ak : Bool) (s : AckSubtype) (an : Nat)
    (f : Flow) :
    (ctrl_pdu_alloc a fc ak s an f).1.dtp.snd_lwe = f.dtp.snd_lwe :=
  congrArg (·.2.2.2.1) (txView_ctrl_pdu_alloc a fc ak s an f)

@[simp] theorem alloc_rwe (a fc ak : Bool) (s : AckSubtype) (an : Nat)
    (f : Flow) :
    (ctrl_pdu_alloc a fc ak s an f).1.dtp.snd_rwe = f.dtp.snd_rwe :=
  congrArg (·.2.2.2.2.1) (txView_ctrl_pdu_alloc a fc ak s an f)

@[simp] theorem alloc_tmr (a fc ak : Bool) (s : AckSubtype) (an : Nat)
    (f : Flow) :
    (ctrl_pdu_alloc a fc ak s an f).1.dtp.rtx_tmr_next =
      f.dtp.rtx_tmr_next :=
  congrArg (·.2.2.2.2.2) (txView_ctrl_pdu_alloc a fc ak s an f)

theorem txView_sv_update (cfg : FlowCfg) (allocOk : Bool) (f : Flow) :
    TxView (sdu_rx_sv_update cfg allocOk f).1 = TxView f := by
  simp only [sdu_rx_sv_update]
  split_ifs <;>
    simp [TxView]

@[simp] theorem sv_rtxq (cfg : FlowCfg) (a : Bool) (f : Flow) :
    (sdu_rx_sv_update cfg a f).1.dtp.rtxq = f.dtp.rtxq :=
  congrArg (·.1) (txView_sv_update cfg a f)

@[simp] theorem sv_cwq (cfg : FlowCfg) (a : Bool) (f : Flow) :
    (sdu_rx_sv_update cfg a f).1.dtp.cwq = f.dtp.cwq :=
  congrArg (·.2.1) (txView_sv_update cfg a f)

@[simp] theorem sv_next (cfg : FlowCfg) (a : Bool) (f : Flow) :
    (sdu_rx_sv_update cfg a f).1.dtp.next_seq_num_to_send =
      f.dtp.next_seq_num_to_send :=
  congrArg (·.2.2.1) (txView_sv_update cfg a f)

@[simp] theorem sv_lwe (cfg : FlowCfg) (a : Bool) (f : Flow) :
    (sdu_rx_sv_update cfg a f).1.dtp.snd_lwe = f.dtp.snd_lwe :=
  congrArg (·.2.2.2.1) (txView_sv_update cfg a f)

@[simp] theorem sv_rwe (cfg : FlowCfg) (a : Bool) (f : Flow) :
    (sdu_rx_sv_update cfg a f).1.dtp.snd_rwe = f.dtp.snd_rwe :=
  congrArg (·.2.2.2.2.1) (txView_sv_update cfg a f)

@[simp] theorem sv_tmr (cfg : FlowCfg) (a : Bool) (f : Flow) :
    (sdu_rx_sv_update cfg a f).1.dtp.rtx_tmr_next = f.dtp.rtx_tmr_next :=
  congrArg (·.2.2.2.2.2) (txView_sv_update cfg a f)

theorem txView_seqq_push (rb : Buf) (f : Flow) :
    TxView (seqq_push rb f) = TxView f := by
  unfold seqq_push
  split
  · rfl
  · split <;> rfl

@[simp] theorem seqq_push_rtxq (rb : Buf) (f : Flow) :
    (seqq_push rb f).dtp.rtxq = f.dtp.rtxq :=
  congrArg (·.1) (txView_seqq_push rb f)

@[simp] theorem seqq_push_cwq (rb : Buf) (f : Flow) :
    (seqq_push rb f).dtp.cwq = f.dtp.cwq :=
  congrArg (·.2.1) (txView_seqq_push rb f)

@[simp] theorem seqq_push_next (rb : Buf) (f : Flow) :
    (seqq_push rb f).dtp.next_seq_num_to_send =
      f.dtp.next_seq_num_to_send :=
  congrArg (·.2.2.1) (txView_seqq_push rb f)

@[simp] theorem seqq_push_lwe (rb : Buf) (f : Flow) :
    (seqq_push rb f).dtp.snd_lwe = f.dtp.snd_lwe :=
  congrArg (·.2.2.2.1) (txView_seqq_push rb f)

@[simp] theorem seqq_push_rwe (rb : Buf) (f : Flow) :
    (seqq_push rb f).dtp.snd_rwe = f.dtp.snd_rwe :=
  congrArg (·.2.2.2.2.1) (txView_seqq_push rb f)

@[simp] theorem seqq_push_tmr (rb : Buf) (f : Flow) :
    (seqq_push rb f).dtp.rtx_tmr_next = f.dtp.rtx_tmr_next :=
  congrArg (·.2.2.2.2.2) (txView_seqq_push rb f)

theorem txView_rcvDrf (cfg : FlowCfg) (allocOk : Bool) (pops : List Bool)
    (rb : Buf) (f : Flow) :
    TxView (rcvDrf cfg allocOk pops rb f).flow = TxView f := by
  simp only [rcvDrf]
  simp [TxView]

theorem txView_rcvDup (cfg : FlowCfg) (allocOk : Bool) (f : Flow) :
    TxView (rcvDup cfg allocOk f).flow = TxView f := by
  simp only [rcvDup]
  split_ifs <;> simp [TxView]

theorem txView_rcvDrop (cfg : FlowCfg) (allocOk : Bool) (f : Flow) :
    TxView (rcvDrop cfg allocOk f).flow = TxView f := by
  simp only [rcvDrop]
  simp [TxView]

theorem txView_rcvDeliver (cfg : FlowCfg) (allocOk : Bool)
    (pops : List Bool) (rb : Buf) (f : Flow) :
    TxView (rcvDeliver cfg allocOk pops rb f).flow = TxView f := by
  simp only [rcvDeliver, seqq_pop_many]
  split_ifs <;> simp [TxView]

theorem txView_rcvHold (cfg : FlowCfg) (allocOk : Bool) (rb : Buf)
    (f : Flow) :
    TxView (rcvHold cfg allocOk rb f).flow = TxView f := by
  simp only [rcvHold]
  simp [TxView]

theorem txView_rcvData (cfg : FlowCfg) (now : Nat) (allocOk : Bool)
    (pops : List Bool) (rb : Buf) (f : Flow) :
    TxView (rcvData cfg now allocOk pops rb f).flow = TxView f := by
  simp only [rcvData]
  split_ifs <;>
    simp only [txView_rcvDrf, txView_rcvDup, txView_rcvDrop,
      txView_rcvDeliver, txView_rcvHold] <;>
    rfl

theorem txView_consumed (cfg : FlowCfg) (allocOk : Bool) (sn : Nat)
    (f : Flow) :
    TxView (sdu_rx_consumed cfg allocOk sn f).1 = TxView f := by
  unfold sdu_rx_consumed
  exact txView_sv_update ..

theorem txView_snd_inact (f : Flow) :
    TxView (snd_inact_cb f) = TxView f := rfl

/-- Variant of inv_congr for operations that keep the seqnums of rtxq and
the whole of cwq but may rebuild the rtxq entries (the rtx timer callback
bumps deadlines in place). -/
theorem inv_congr2 {cfg : FlowCfg} {f g : Flow}
    (hrs : rtxSeqs g = rtxSeqs f) (hc : g.dtp.cwq = f.dtp.cwq)
    (hn : g.dtp.next_seq_num_to_send = f.dtp.next_seq_num_to_send)
    (hl : g.dtp.snd_lwe = f.dtp.snd_lwe)
    (hw : g.dtp.snd_rwe = f.dtp.snd_rwe)
    (ht : ∀ n, g.dtp.rtx_tmr_next = some n → n ∈ rtxSeqs g)
    (hf : Inv cfg f) : Inv cfg g := by
  have hcs : cwqSeqs g = cwqSeqs f := by unfold cwqSeqs; rw [hc]
  exact ⟨hrs ▸ hf.rtx_sorted, hcs ▸ hf.cwq_sorted,
    by rw [hrs, hcs]; exact hf.rtx_lt_cwq,
    by rw [hrs, hn]; exact hf.rtx_lt_next,
    by rw [hcs, hn]; exact hf.cwq_lt_next,
    by rw [hcs, hl]; exact hf.cwq_ge_lwe,
    by rw [hl, hn]; exact hf.lwe_le_next,
    by rw [hc, hw, hn]; exact hf.cwq_rwe,
    by rw [hc]; exact hf.cwq_win, ht⟩

theorem pairwise_append_one {l : List Nat} {x : Nat}
    (h : l.Pairwise (· < ·)) (hx : ∀ a ∈ l, a < x) :
    (l ++ [x]).Pairwise (· < ·) := by
  refine List.pairwise_append.mpr ⟨h, List.pairwise_singleton _ _, ?_⟩
  simpa using hx

theorem inv_flow_init (cfg : FlowCfg) : Inv cfg (flow_init cfg) := by
  refine ⟨?_, ?_, ?_, ?_, ?_, ?_, ?_, ?_, ?_, ?_⟩ <;>
    simp [flow_init, rtxSeqs, cwqSeqs]

/-- Behaviour of rlite_rtxq_push on the fields relevant to the queue
invariant. -/
theorem rtxq_push_facts (now : Nat) (ok : Bool) (rb : Buf) (f : Flow) :
    (rtxq_push now ok rb f).1.dtp.cwq = f.dtp.cwq ∧
    (rtxq_push now ok rb f).1.dtp.next_seq_num_to_send =
      f.dtp.next_seq_num_to_send ∧
    (rtxq_push now ok rb f).1.dtp.snd_lwe = f.dtp.snd_lwe ∧
    (rtxq_push now ok rb f).1.dtp.snd_rwe = f.dtp.snd_rwe ∧
    (rtxSeqs (rtxq_push now ok rb f).1 = rtxSeqs f ∨
      rtxSeqs (rtxq_push now ok rb f).1 = rtxSeqs f ++ [rb.seqnum]) ∧
    (∀ n, (rtxq_push now ok rb f).1.dtp.rtx_tmr_next = some n →
      f.dtp.rtx_tmr_next = some n ∨
        (n = rb.seqnum ∧
          rtxSeqs (rtxq_push now ok rb f).1 = rtxSeqs f ++ [rb.seqnum])) ∧
    (rtxq_push now ok rb f).1.dtp.last_seq_num_sent =
      f.dtp.last_seq_num_sent ∧
    (rtxq_push now ok rb f).1.dtp.rcv_lwe = f.dtp.rcv_lwe ∧
    (rtxq_push now ok rb f).1.dtp.rcv_lwe_priv = f.dtp.rcv_lwe_priv ∧
    (rtxq_push now ok rb f).1.dtp.last_ctrl_seq_num_rcvd =
      f.dtp.last_ctrl_seq_num_rcvd := by
  simp only [rtxq_push]
  split
  · split <;> (first | (simp [rtxSeqs]; tauto) | simp [rtxSeqs])
  · simp [rtxSeqs]

/-- The invariant is preserved by rlite_rtxq_push when the pushed seqnum
dominates the rtxq, is dominated by the cwq, and is below the next seqnum
to send. -/
theorem inv_rtxq_push {cfg : FlowCfg} (now : Nat) (ok : Bool) (rb : Buf)
    (f : Flow) (h : Inv cfg f)
    (hgt : ∀ a ∈ rtxSeqs f, a < rb.seqnum)
    (hcw : ∀ b ∈ cwqSeqs f, rb.seqnum < b)
    (hnx : rb.seqnum < f.dtp.next_seq_num_to_send) :
    Inv cfg (rtxq_push now ok rb f).1 := by
  obtain ⟨hc, hn, hl, hw, hseq, htm, -⟩ := rtxq_push_facts now ok rb f
  have hcs : cwqSeqs (rtxq_push now ok rb f).1 = cwqSeqs f := by
    unfold cwqSeqs; rw [hc]
  have hmem : ∀ a ∈ rtxSeqs (rtxq_push now ok rb f).1,
      a ∈ rtxSeqs f ∨ a = rb.seqnum := by
    rcases hseq with hs | hs <;> rw [hs] <;> intro a ha <;> simp_all
  refine ⟨?_, hcs ▸ h.cwq_sorted, ?_, ?_, hcs ▸ hn ▸ h.cwq_lt_next,
    hcs ▸ hl ▸ h.cwq_ge_lwe, by rw [hl, hn]; exact h.lwe_le_next,
    by rw [hc, hw, hn]; exact h.cwq_rwe, by rw [hc]; exact h.cwq_win, ?_⟩
  · rcases hseq with hs | hs <;> rw [hs]
    · exact h.rtx_sorted
    · exact pairwise_append_one h.rtx_sorted hgt
  · intro a ha b hb
    rw [hcs] at hb
    rcases hmem a ha with hm | hm
    · exact h.rtx_lt_cwq a hm b hb
    · exact hm ▸ hcw b hb
  · intro a ha
    rw [hn]
    rcases hmem a ha with hm | hm
    · exact h.rtx_lt_next a hm
    · exact hm ▸ hnx
  · intro n hnn
    rcases htm n hnn with hm | ⟨he, hs⟩
    · have := h.tmr_mem n hm
      rcases hseq with hs | hs <;> rw [hs] <;> simp_all
    · rw [hs, he]; simp

theorem inv_writeStamped {cfg : FlowCfg} (rb : Buf) {f : Flow}
    (h : Inv cfg f)
    (hsn : f.dtp.next_seq_num_to_send ≤ rb.seqnum) :
    Inv cfg (writeStamped rb f) := by
  have hr : rtxSeqs (writeStamped rb f) = rtxSeqs f := rfl
  have hc : cwqSeqs (writeStamped rb f) = cwqSeqs f := rfl
  refine ⟨hr ▸ h.rtx_sorted, hc ▸ h.cwq_sorted, ?_, ?_, ?_, ?_, ?_, ?_,
    h.cwq_win, h.tmr_mem⟩
  · rw [hr, hc]; exact h.rtx_lt_cwq
  · intro a ha
    rw [hr] at ha
    have := h.rtx_lt_next a ha
    show a < rb.seqnum + 1
    omega
  · intro b hb
    rw [hc] at hb
    have := h.cwq_lt_next b hb
    show b < rb.seqnum + 1
    omega
  · exact hc ▸ h.cwq_ge_lwe
  · have := h.lwe_le_next
    show f.dtp.snd_lwe ≤ rb.seqnum + 1
    omega
  · intro hne
    have := h.cwq_rwe hne
    show f.dtp.snd_rwe < rb.seqnum + 1
    omega

theorem inv_stamp_park {cfg : FlowCfg} {rb : Buf} {f : Flow}
    (h : Inv cfg f) (hsn : rb.seqnum = f.dtp.next_seq_num_to_send)
    (hwin : f.dtp.snd_rwe < rb.seqnum) (hfc : cfg.fc_win = true)
    (hdt : cfg.dtcp_present = true) :
    Inv cfg (writePark rb (writeStamped rb f)) := by
  have hr : rtxSeqs (writePark rb (writeStamped rb f)) = rtxSeqs f := rfl
  have hc : cwqSeqs (writePark rb (writeStamped rb f)) =
      cwqSeqs f ++ [rb.seqnum] := by
    simp [cwqSeqs, writePark, writeStamped]
  have hclt : ∀ b ∈ cwqSeqs f, b < rb.seqnum := by
    intro b hb
    have := h.cwq_lt_next b hb
    omega
  refine ⟨hr ▸ h.rtx_sorted, ?_, ?_, ?_, ?_, ?_, ?_, ?_, ?_,
    h.tmr_mem⟩
  · rw [hc]
    exact pairwise_append_one h.cwq_sorted hclt
  · intro a ha b hb
    rw [hr] at ha
    rw [hc] at hb
    have ha' := h.rtx_lt_next a ha
    rcases List.mem_append.mp hb with hb | hb
    · exact h.rtx_lt_cwq a ha b hb
    · have : b = rb.seqnum := by simpa using hb
      omega
  · intro a ha
    rw [hr] at ha
    have := h.rtx_lt_next a ha
    show a < rb.seqnum + 1
    omega
  · intro b hb
    rw [hc] at hb
    show b < rb.seqnum + 1
    rcases List.mem_append.mp hb with hb | hb
    · have := hclt b hb
      omega
    · have : b = rb.seqnum := by simpa using hb
      omega
  · intro b hb
    rw [hc] at hb
    show f.dtp.snd_lwe ≤ b
    rcases List.mem_append.mp hb with hb | hb
    · exact h.cwq_ge_lwe b hb
    · have : b = rb.seqnum := by simpa using hb
      have := h.lwe_le_next
      omega
  · have := h.lwe_le_next
    show f.dtp.snd_lwe ≤ rb.seqnum + 1
    omega
  · intro _
    show f.dtp.snd_rwe < rb.seqnum + 1
    omega
  · intro hdisj
    rcases hdisj with hd | hd
    · rw [hfc] at hd; exact absurd hd (by simp)
    · rw [hdt] at hd; exact absurd hd (by simp)

theorem inv_stamp_advance {cfg : FlowCfg} {rb : Buf} {f : Flow}
    (h : Inv cfg f) (hsn : rb.seqnum = f.dtp.next_seq_num_to_send)
    (hcw : f.dtp.cwq = []) :
    Inv cfg (writeAdvance rb.seqnum (writeStamped rb f)) := by
  have hr : rtxSeqs (writeAdvance rb.seqnum (writeStamped rb f)) =
      rtxSeqs f := rfl
  have hc : cwqSeqs (writeAdvance rb.seqnum (writeStamped rb f)) = [] := by
    simp [cwqSeqs, writeAdvance, writeStamped, hcw]
  have hcw' : (writeAdvance rb.seqnum (writeStamped rb f)).dtp.cwq = [] :=
    by simp [writeAdvance, writeStamped, hcw]
  refine ⟨hr ▸ h.rtx_sorted, by rw [hc]; exact List.Pairwise.nil, ?_, ?_,
    ?_, ?_, ?_, ?_, ?_, h.tmr_mem⟩
  · intro a _ b hb
    rw [hc] at hb
    exact absurd hb (List.not_mem_nil b)
  · intro a ha
    rw [hr] at ha
    have := h.rtx_lt_next a ha
    show a < rb.seqnum + 1
    omega
  · intro b hb
    rw [hc] at hb
    exact absurd hb (List.not_mem_nil b)
  · intro b hb
    rw [hc] at hb
    exact absurd hb (List.not_mem_nil b)
  · show rb.seqnum + 1 ≤ rb.seqnum + 1
    exact le_refl _
  · intro hne
    exact absurd hcw' hne
  · intro _
    exact hcw'

theorem inv_writeRewind {cfg : FlowCfg} (rb : Buf) {f : Flow}
    (h : Inv cfg f) : Inv cfg (writeRewind rb f) :=
  inv_congr (show TxView (writeRewind rb f) = TxView f from rfl) h

theorem inv_sdu_write_core (cfg : FlowCfg) (now : Nat)
    (pushOk allocOk : Bool) (payload : Nat) (f : Flow) (h : Inv cfg f) :
    Inv cfg (sdu_write_core cfg now pushOk allocOk payload f).1 := by
  simp only [sdu_write_core]
  split_ifs with hbl hp hd hw hrx hw1 hk1 hk2 hw2
  -- admission backpressure: state unchanged
  · exact h
  -- parked into cwq
  · exact inv_stamp_park h rfl hw.2 hw.1 hd
  -- in-window send, rtx clone pushed
  · have hfcw : ¬f.dtp.snd_rwe < f.dtp.next_seq_num_to_send :=
      fun hls => hw ⟨hw1, hls⟩
    have hcw : f.dtp.cwq = [] := by
      by_cases hne : f.dtp.cwq = []
      · exact hne
      · exact absurd (h.cwq_rwe hne) hfcw
    exact inv_rtxq_push _ _ _ _ (inv_stamp_advance h rfl hcw)
      (fun a ha => h.rtx_lt_next a ha)
      (fun b hb => by
        simp [cwqSeqs, writeAdvance, writeStamped, hcw] at hb)
      (Nat.lt_succ_self _)
  -- in-window send, rtx clone failed: counters rewound
  · have hfcw : ¬f.dtp.snd_rwe < f.dtp.next_seq_num_to_send :=
      fun hls => hw ⟨hw1, hls⟩
    have hcw : f.dtp.cwq = [] := by
      by_cases hne : f.dtp.cwq = []
      · exact hne
      · exact absurd (h.cwq_rwe hne) hfcw
    exact inv_writeRewind _ (inv_rtxq_push _ _ _ _
      (inv_stamp_advance h rfl hcw)
      (fun a ha => h.rtx_lt_next a ha)
      (fun b hb => by
        simp [cwqSeqs, writeAdvance, writeStamped, hcw] at hb)
      (Nat.lt_succ_self _))
  -- no window FC, rtx clone pushed
  · have hwin : cfg.fc_win = false := by simpa using hw1
    have hcw : f.dtp.cwq = [] := h.cwq_win (Or.inl hwin)
    exact inv_rtxq_push _ _ _ _ (inv_writeStamped _ h le_rfl)
      (fun a ha => h.rtx_lt_next a ha)
      (fun b hb => by
        simp [cwqSeqs, writeStamped, hcw] at hb)
      (Nat.lt_succ_self _)
  -- no window FC, rtx clone failed
  · have hwin : cfg.fc_win = false := by simpa using hw1
    have hcw : f.dtp.cwq = [] := h.cwq_win (Or.inl hwin)
    exact inv_writeRewind _ (inv_rtxq_push _ _ _ _
      (inv_writeStamped _ h le_rfl)
      (fun a ha => h.rtx_lt_next a ha)
      (fun b hb => by
        simp [cwqSeqs, writeStamped, hcw] at hb)
      (Nat.lt_succ_self _))
  -- no rtx control, window FC, in-window send
  · have hfcw : ¬f.dtp.snd_rwe < f.dtp.next_seq_num_to_send :=
      fun hls => hw ⟨hw2, hls⟩
    have hcw : f.dtp.cwq = [] := by
      by_cases hne : f.dtp.cwq = []
      · exact hne
      · exact absurd (h.cwq_rwe hne) hfcw
    exact inv_stamp_advance h rfl hcw
  -- no rtx control, no window FC
  · exact inv_writeStamped _ h le_rfl
  -- DTCP absent: plain send
  · have hcw : f.dtp.cwq = [] :=
      h.cwq_win (Or.inr (by simpa using hd))
    exact inv_stamp_advance h rfl hcw
  -- PCI push failed: only tx_err changes
  · exact inv_congr (show TxView _ = TxView f from rfl) h

theorem inv_sdu_write (cfg : FlowCfg) (now : Nat) (pushOk allocOk : Bool)
    (payload : Nat) (f : Flow) (h : Inv cfg f) :
    Inv cfg (sdu_write cfg now pushOk allocOk payload f).1 := by
  unfold sdu_write
  refine inv_sdu_write_core cfg now pushOk allocOk payload _ ?_
  apply inv_congr _ h
  unfold writeArm
  split <;> rfl

/-- Unfolding equation of the ACK removal loop at a removed head. -/
theorem ackLoop_cons_le {A : Nat} {c : Buf} {rest : List Buf}
    {nxt : Option Nat} (hc : c.seqnum ≤ A) :
    ackLoop A (c :: rest) nxt =
      ((ackLoop A rest (if nxt = some c.seqnum then none else nxt)).1,
       (ackLoop A rest (if nxt = some c.seqnum then none else nxt)).2.1 + 1,
       (ackLoop A rest (if nxt = some c.seqnum then none else nxt)).2.2) :=
  by simp [ackLoop, hc]

/-- Unfolding equation of the ACK removal loop at a surviving head, with no
armed timer entry. -/
theorem ackLoop_cons_gt_none {A : Nat} {c : Buf} {rest : List Buf}
    (hc : ¬c.seqnum ≤ A) :
    ackLoop A (c :: rest) none = (c :: rest, 0, some c.seqnum, some c) :=
  by simp [ackLoop, hc]

/-- Unfolding equation of the ACK removal loop at a surviving head, with
the timer still armed. -/
theorem ackLoop_cons_gt_some {A : Nat} {c : Buf} {rest : List Buf}
    {m : Nat} (hc : ¬c.seqnum ≤ A) :
    ackLoop A (c :: rest) (some m) = (c :: rest, 0, some m, none) :=
  by simp [ackLoop, hc]

/-- The remaining rtxq after the ACK removal loop is the suffix past the
acked prefix. -/
theorem ackLoop_rem (A : Nat) (l : List Buf) :
    ∀ nxt : Option Nat,
      (ackLoop A l nxt).1 =
        l.dropWhile (fun b => decide (b.seqnum ≤ A)) := by
  induction l with
  | nil => intro nxt; rfl
  | cons c rest ih =>
    intro nxt
    by_cases hc : c.seqnum ≤ A
    · rw [ackLoop_cons_le hc, List.dropWhile_cons]
      simp [hc, ih]
    · cases nxt with
      | none => rw [ackLoop_cons_gt_none hc, List.dropWhile_cons]; simp [hc]
      | some m =>
        rw [ackLoop_cons_gt_some hc, List.dropWhile_cons]; simp [hc]

/-- Elements surviving the ACK removal loop all exceed the acked seqnum,
given a sorted rtxq. -/
theorem dropWhile_gt (A : Nat) (l : List Buf)
    (hs : (l.map Buf.seqnum).Pairwise (· < ·)) :
    ∀ b ∈ l.dropWhile (fun b => decide (b.seqnum ≤ A)), A < b.seqnum := by
  induction l with
  | nil => intro b hb; simp [List.dropWhile] at hb
  | cons c rest ih =>
    obtain ⟨h1, h2⟩ :
        (∀ a ∈ rest, c.seqnum < a.seqnum) ∧
          (rest.map Buf.seqnum).Pairwise (· < ·) := by simpa using hs
    intro b hb
    rw [List.dropWhile_cons] at hb
    by_cases hc : c.seqnum ≤ A
    · simp only [hc, decide_eq_true_eq, if_pos] at hb
      exact ih h2 b hb
    · simp only [hc, decide_eq_true_eq, if_neg] at hb
      rcases List.mem_cons.mp hb with hb | hb
      · subst hb; omega
      · have := h1 b hb
        omega

/-- The rtx_tmr_next produced by the ACK removal loop identifies a
surviving rtxq entry whenever the incoming one identified an rtxq
entry. -/
theorem ackLoop_tmr (A : Nat) (l : List Buf) :
    ∀ nxt : Option Nat,
      (∀ n, nxt = some n → n ∈ l.map Buf.seqnum) →
      ∀ n, (ackLoop A l nxt).2.2.1 = some n →
        n ∈ (ackLoop A l nxt).1.map Buf.seqnum := by
  induction l with
  | nil =>
    intro nxt hpre n hn
    simp only [ackLoop] at hn
    simpa using hpre n hn
  | cons c rest ih =>
    intro nxt hpre n hn
    by_cases hc : c.seqnum ≤ A
    · rw [ackLoop_cons_le hc] at hn ⊢
      refine ih _ ?_ n hn
      intro m hm
      by_cases he : nxt = some c.seqnum
      · rw [if_pos he] at hm; exact absurd hm (by simp)
      · rw [if_neg he] at hm
        have hmem := hpre m hm
        rcases (by simpa using hmem :
            m = c.seqnum ∨ ∃ a ∈ rest, a.seqnum = m) with h1 | h1
        · exact absurd (h1 ▸ hm) he
        · simpa using h1
    · cases nxt with
      | none =>
        rw [ackLoop_cons_gt_none hc] at hn ⊢
        have : n = c.seqnum := by simpa using hn.symm
        simp [this]
      | some m =>
        rw [ackLoop_cons_gt_some hc] at hn ⊢
        have : n = m := by simpa using hn.symm
        subst this
        simpa using hpre n rfl

theorem dropWhile_sub {α : Type} (p : α → Bool) :
    ∀ l : List α, List.Sublist (l.dropWhile p) l := by
  intro l
  induction l with
  | nil => simp
  | cons a t ih =>
    rw [List.dropWhile_cons]
    split_ifs
    · exact ih.cons a
    · exact List.Sublist.refl _

/-- Projections of ackPhase: only rtxq, its length and the rtx timer
fields change. -/
theorem ackPhase_fields (A : Nat) (f : Flow) :
    (ackPhase A f).dtp.rtxq =
        (ackLoop A f.dtp.rtxq f.dtp.rtx_tmr_next).1 ∧
      (ackPhase A f).dtp.rtx_tmr_next =
        (ackLoop A f.dtp.rtxq f.dtp.rtx_tmr_next).2.2.1 ∧
      (ackPhase A f).dtp.cwq = f.dtp.cwq ∧
      (ackPhase A f).dtp.next_seq_num_to_send =
        f.dtp.next_seq_num_to_send ∧
      (ackPhase A f).dtp.snd_lwe = f.dtp.snd_lwe ∧
      (ackPhase A f).dtp.snd_rwe = f.dtp.snd_rwe ∧
      (ackPhase A f).dtp.last_seq_num_sent = f.dtp.last_seq_num_sent ∧
      (ackPhase A f).dtp.rcv_lwe = f.dtp.rcv_lwe ∧
      (ackPhase A f).dtp.rcv_lwe_priv = f.dtp.rcv_lwe_priv ∧
      (ackPhase A f).dtp.last_ctrl_seq_num_rcvd =
        f.dtp.last_ctrl_seq_num_rcvd := by
  refine ⟨?_, ?_, ?_, ?_, ?_, ?_, ?_, ?_, ?_, ?_⟩ <;>
    (simp only [ackPhase]; split <;> split <;> rfl)

theorem inv_ackPhase {cfg : FlowCfg} (A : Nat) {f : Flow}
    (h : Inv cfg f) : Inv cfg (ackPhase A f) := by
  obtain ⟨hrem, htmr, hcwq, hnx, hlw, hrw, -, -, -, -⟩ :=
    ackPhase_fields A f
  have hsub : List.Sublist (ackPhase A f).dtp.rtxq f.dtp.rtxq := by
    rw [hrem, ackLoop_rem]
    exact dropWhile_sub _ _
  have hsubm : List.Sublist (rtxSeqs (ackPhase A f)) (rtxSeqs f) :=
    hsub.map Buf.seqnum
  have hcs : cwqSeqs (ackPhase A f) = cwqSeqs f := by
    unfold cwqSeqs; rw [hcwq]
  refine ⟨List.Pairwise.sublist hsubm h.rtx_sorted, hcs ▸ h.cwq_sorted, ?_, ?_,
    by rw [hcs, hnx]; exact h.cwq_lt_next,
    by rw [hcs, hlw]; exact h.cwq_ge_lwe,
    by rw [hlw, hnx]; exact h.lwe_le_next,
    by rw [hcwq, hrw, hnx]; exact h.cwq_rwe,
    by rw [hcwq]; exact h.cwq_win, ?_⟩
  · intro a ha b hb
    rw [hcs] at hb
    exact h.rtx_lt_cwq a (hsubm.subset ha) b hb
  · intro a ha
    rw [hnx]
    exact h.rtx_lt_next a (hsubm.subset ha)
  · intro n hn
    rw [htmr] at hn
    have := ackLoop_tmr A f.dtp.rtxq f.dtp.rtx_tmr_next h.tmr_mem n hn
    unfold rtxSeqs
    rw [hrem]
    exact this

/-- Unfolding equation of the cwq drain at a stop (window exhausted). -/
theorem cwqDrainGo_cons_stop {cfg : FlowCfg} {now : Nat} {al : List Bool}
    {q : Buf} {rest : List Buf} {f : Flow}
    (hstop : f.dtp.snd_rwe ≤ f.dtp.snd_lwe) :
    cwqDrainGo cfg now al (q :: rest) f =
      ({ f with dtp := { f.dtp with cwq := q :: rest } }, [], al) := by
  simp [cwqDrainGo, hstop]

/-- Unfolding equation of the cwq drain at a pop. -/
theorem cwqDrainGo_cons_go {cfg : FlowCfg} {now : Nat} {al : List Bool}
    {q : Buf} {rest : List Buf} {f : Flow}
    (hgo : ¬f.dtp.snd_rwe ≤ f.dtp.snd_lwe) :
    cwqDrainGo cfg now al (q :: rest) f =
      ((cwqDrainGo cfg now (drainStep cfg now al q f).2 rest
          (drainStep cfg now al q f).1).1,
       q :: (cwqDrainGo cfg now (drainStep cfg now al q f).2 rest
          (drainStep cfg now al q f).1).2.1,
       (cwqDrainGo cfg now (drainStep cfg now al q f).2 rest
          (drainStep cfg now al q f).1).2.2) := by
  simp [cwqDrainGo, hgo]

/-- Behaviour of one drain step on the fields relevant to the queue
invariant. -/
theorem drainStep_facts (cfg : FlowCfg) (now : Nat) (al : List Bool)
    (q : Buf) (f : Flow) :
    (drainStep cfg now al q f).1.dtp.cwq = f.dtp.cwq ∧
    (drainStep cfg now al q f).1.dtp.next_seq_num_to_send =
      f.dtp.next_seq_num_to_send ∧
    (drainStep cfg now al q f).1.dtp.snd_lwe = f.dtp.snd_lwe + 1 ∧
    (drainStep cfg now al q f).1.dtp.snd_rwe = f.dtp.snd_rwe ∧
    (rtxSeqs (drainStep cfg now al q f).1 = rtxSeqs f ∨
      rtxSeqs (drainStep cfg now al q f).1 = rtxSeqs f ++ [q.seqnum]) ∧
    (∀ n, (drainStep cfg now al q f).1.dtp.rtx_tmr_next = some n →
      f.dtp.rtx_tmr_next = some n ∨
        (n = q.seqnum ∧
          rtxSeqs (drainStep cfg now al q f).1 =
            rtxSeqs f ++ [q.seqnum])) ∧
    (drainStep cfg now al q f).1.dtp.rcv_lwe = f.dtp.rcv_lwe ∧
    (drainStep cfg now al q f).1.dtp.rcv_lwe_priv = f.dtp.rcv_lwe_priv ∧
    (drainStep cfg now al q f).1.dtp.last_ctrl_seq_num_rcvd =
      f.dtp.last_ctrl_seq_num_rcvd := by
  unfold drainStep
  split
  · obtain ⟨h1, h2, h3, h4, h5, h6, -, h7, h8, h9⟩ :=
      rtxq_push_facts now (takeOra al).1 q (drainPop f)
    have hd1 : (drainPop f).dtp.cwq = f.dtp.cwq := rfl
    have hd5 : rtxSeqs (drainPop f) = rtxSeqs f := rfl
    refine ⟨by rw [h1]; rfl, by rw [h2]; rfl, by rw [h3]; rfl,
      by rw [h4]; rfl, by rw [← hd5]; exact h5, ?_,
      by rw [h7]; rfl, by rw [h8]; rfl, by rw [h9]; rfl⟩
    intro n hn
    rcases h6 n hn with hm | ⟨he, hs⟩
    · exact Or.inl hm
    · exact Or.inr ⟨he, by rw [← hd5]; exact hs⟩
  · exact ⟨rfl, rfl, rfl, rfl, Or.inl rfl, fun n hn => Or.inl hn,
      rfl, rfl, rfl⟩

theorem cwqDrainGo_nil {cfg : FlowCfg} {now : Nat} {al : List Bool}
    {f : Flow} :
    cwqDrainGo cfg now al [] f =
      ({ f with dtp := { f.dtp with cwq := [] } }, [], al) := rfl

/-- The queue invariant holds after the cwq drain, given the invariant
facts relativised to the cwq list being drained. -/
theorem inv_cwqDrainGo (cfg : FlowCfg) (now : Nat) :
    ∀ (cw : List Buf) (al : List Bool) (f : Flow),
      (cw.map Buf.seqnum).Pairwise (· < ·) →
      (∀ b ∈ cw, f.dtp.snd_lwe ≤ b.seqnum) →
      (∀ b ∈ cw, b.seqnum < f.dtp.next_seq_num_to_send) →
      (rtxSeqs f).Pairwise (· < ·) →
      (∀ a ∈ rtxSeqs f, ∀ b ∈ cw, a < b.seqnum) →
      (∀ a ∈ rtxSeqs f, a < f.dtp.next_seq_num_to_send) →
      f.dtp.snd_lwe ≤ f.dtp.next_seq_num_to_send →
      (∀ n, f.dtp.rtx_tmr_next = some n → n ∈ rtxSeqs f) →
      (cfg.fc_win = false ∨ cfg.dtcp_present = false → cw = []) →
      Inv cfg (cwqDrainGo cfg now al cw f).1 := by
  intro cw
  induction cw with
  | nil =>
    intro al f hcs hcl hcn hrs hrc hrn hln htm hwin
    rw [cwqDrainGo_nil]
    refine ⟨hrs, List.Pairwise.nil, ?_, hrn, ?_, ?_, hln, ?_, ?_, htm⟩
    · intro a _ b hb
      exact absurd hb (List.not_mem_nil b)
    · intro b hb
      exact absurd hb (List.not_mem_nil b)
    · intro b hb
      exact absurd hb (List.not_mem_nil b)
    · intro hne
      exact absurd rfl hne
    · intro _
      rfl
  | cons q rest ih =>
    intro al f hcs hcl hcn hrs hrc hrn hln htm hwin
    have hq : f.dtp.snd_lwe ≤ q.seqnum := hcl q (List.mem_cons_self q rest)
    have hqn : q.seqnum < f.dtp.next_seq_num_to_send :=
      hcn q (List.mem_cons_self q rest)
    by_cases hstop : f.dtp.snd_rwe ≤ f.dtp.snd_lwe
    · rw [cwqDrainGo_cons_stop hstop]
      refine ⟨hrs, hcs, ?_, hrn, ?_, ?_, hln, ?_, ?_, htm⟩
      · intro a ha b hb
        obtain ⟨bf, hbf, rfl⟩ := List.mem_map.mp hb
        exact hrc a ha bf hbf
      · intro b hb
        obtain ⟨bf, hbf, rfl⟩ := List.mem_map.mp hb
        exact hcn bf hbf
      · intro b hb
        obtain ⟨bf, hbf, rfl⟩ := List.mem_map.mp hb
        exact hcl bf hbf
      · intro _
        show f.dtp.snd_rwe < f.dtp.next_seq_num_to_send
        omega
      · intro hd
        exact absurd (hwin hd) (List.cons_ne_nil q rest)
    · rw [cwqDrainGo_cons_go hstop]
      obtain ⟨hs1, hs2, hs3, hs4, hs5, hs6, -, -, -⟩ :=
        drainStep_facts cfg now al q f
      have hp := List.pairwise_cons.mp
        (show ((q :: rest).map Buf.seqnum).Pairwise (· < ·) from hcs)
      have hhd : ∀ b ∈ rest, q.seqnum < b.seqnum := fun b hb =>
        hp.1 b.seqnum (List.mem_map_of_mem Buf.seqnum hb)
      have htl : (rest.map Buf.seqnum).Pairwise (· < ·) := hp.2
      have hmem2 : ∀ a ∈ rtxSeqs (drainStep cfg now al q f).1,
          a ∈ rtxSeqs f ∨ a = q.seqnum := by
        intro a ha
        rcases hs5 with hs | hs <;> rw [hs] at ha
        · exact Or.inl ha
        · rcases List.mem_append.mp ha with hm | hm
          · exact Or.inl hm
          · exact Or.inr (by simpa using hm)
      refine ih _ _ htl ?_ ?_ ?_ ?_ ?_ ?_ ?_ ?_
      · intro b hb
        rw [hs3]
        have := hhd b hb
        omega
      · intro b hb
        rw [hs2]
        exact hcn b (List.mem_cons_of_mem q hb)
      · rcases hs5 with hs | hs <;> rw [hs]
        · exact hrs
        · exact pairwise_append_one hrs
            (fun a ha => hrc a ha q (List.mem_cons_self q rest))
      · intro a ha b hb
        rcases hmem2 a ha with hm | hm
        · exact hrc a hm b (List.mem_cons_of_mem q hb)
        · have := hhd b hb
          omega
      · intro a ha
        rw [hs2]
        rcases hmem2 a ha with hm | hm
        · exact hrn a hm
        · omega
      · rw [hs3, hs2]
        omega
      · intro n hn
        rcases hs6 n hn with hm | ⟨he, hs⟩
        · have hmf := htm n hm
          rcases hs5 with hs | hs <;> rw [hs]
          · exact hmf
          · exact List.mem_append_left _ hmf
        · rw [hs, he]
          exact List.mem_append_right _ (List.mem_singleton_self _)
      · intro hd
        exact absurd (hwin hd) (List.cons_ne_nil q rest)

theorem inv_fcPhase {cfg : FlowCfg} (now : Nat) (al : List Bool)
    (new_rwe : Nat) {f : Flow} (h : Inv cfg f) :
    Inv cfg (fcPhase cfg now al new_rwe f).1 := by
  unfold fcPhase
  split
  · exact h
  · refine inv_cwqDrainGo cfg now _ al _ h.cwq_sorted ?_ ?_ h.rtx_sorted
      ?_ h.rtx_lt_next h.lwe_le_next h.tmr_mem h.cwq_win
    · intro b hb
      exact h.cwq_ge_lwe b.seqnum (List.mem_map_of_mem Buf.seqnum hb)
    · intro b hb
      exact h.cwq_lt_next b.seqnum (List.mem_map_of_mem Buf.seqnum hb)
    · intro a ha b hb
      exact h.rtx_lt_cwq a ha b.seqnum (List.mem_map_of_mem Buf.seqnum hb)

theorem inv_ctrlAccept1 {cfg : FlowCfg} (now : Nat) (al : List Bool)
    (c : CtrlPdu) {f : Flow} (h : Inv cfg f) :
    Inv cfg (ctrlAccept1 cfg now al c f).1 := by
  have h2 : Inv cfg
      ({ f with dtp :=
        { f.dtp with last_ctrl_seq_num_rcvd := c.seqnum } }) :=
    inv_congr (show TxView _ = TxView f from rfl) h
  simp only [ctrlAccept1]
  split
  · exact inv_fcPhase now al c.new_rwe h2
  · exact h2

theorem inv_sdu_rx_ctrl (cfg : FlowCfg) (now : Nat) (al : List Bool)
    (c : CtrlPdu) (f : Flow) (h : Inv cfg f) :
    Inv cfg (sdu_rx_ctrl cfg now al c f).flow := by
  simp only [sdu_rx_ctrl]
  split_ifs <;>
    first
      | exact h
      | exact inv_ctrlAccept1 now al c h
      | (split <;>
          first
            | exact inv_ackPhase _ (inv_ctrlAccept1 now al c h)
            | exact inv_ctrlAccept1 now al c h)

theorem rtxScanGo_cons_exp {tint now orig : Nat} {rb : Buf}
    {rest : List Buf} {al : List Bool} (hc : rb.rtx_jiffies ≤ now) :
    rtxScanGo tint now orig al (rb :: rest) =
      ({ rb with rtx_jiffies := rb.rtx_jiffies + tint } ::
         (rtxScanGo tint now orig (takeOra al).2 rest).1,
       (if (takeOra al).1 then
          [{ rb with rtx_jiffies := rb.rtx_jiffies + tint }] else []) ++
         (rtxScanGo tint now orig (takeOra al).2 rest).2.1,
       (rtxScanGo tint now orig (takeOra al).2 rest).2.2.1,
       (rtxScanGo tint now orig (takeOra al).2 rest).2.2.2) := by
  simp [rtxScanGo, hc]

theorem rtxScanGo_cons_stop {tint now orig : Nat} {rb : Buf}
    {rest : List Buf} {al : List Bool} (hc : ¬rb.rtx_jiffies ≤ now) :
    rtxScanGo tint now orig al (rb :: rest) =
      (rb :: rest, [],
       (if rb.seqnum = orig then none else some rb), al) := by
  simp [rtxScanGo, hc]

/-- The ring scan of the rtx timer callback keeps the seqnums of the rtxq
ring in place. -/
theorem rtxScanGo_map (tint now orig : Nat) :
    ∀ (l : List Buf) (al : List Bool),
      (rtxScanGo tint now orig al l).1.map Buf.seqnum =
        l.map Buf.seqnum := by
  intro l
  induction l with
  | nil => intro al; rfl
  | cons rb rest ih =>
    intro al
    by_cases hc : rb.rtx_jiffies ≤ now
    · rw [rtxScanGo_cons_exp hc]
      simp only [List.map_cons]
      rw [ih _]
    · rw [rtxScanGo_cons_stop hc]

/-- The buffer the ring scan stops at is an entry of the ring. -/
theorem rtxScanGo_stop (tint now orig : Nat) :
    ∀ (l : List Buf) (al : List Bool) (b : Buf),
      (rtxScanGo tint now orig al l).2.2.1 = some b →
        b.seqnum ∈ l.map Buf.seqnum := by
  intro l
  induction l with
  | nil =>
    intro al b hb
    exact absurd hb (by simp [rtxScanGo])
  | cons rb rest ih =>
    intro al b hb
    by_cases hc : rb.rtx_jiffies ≤ now
    · rw [rtxScanGo_cons_exp hc] at hb
      have := ih _ b hb
      simp only [List.map_cons]
      exact List.mem_cons_of_mem _ this
    · rw [rtxScanGo_cons_stop hc] at hb
      simp only [] at hb
      split_ifs at hb
      first
        | exact Option.noConfusion hb
        | (injection hb with hbe
           subst hbe
           simp)

/-- A rotation of a list by any amount keeps its multiset of elements; in
particular the rotate-scan-unrotate of the rtx timer callback keeps the
rtxq seqnums in order, and the buffer it re-arms at is an rtxq entry. -/
theorem rtxRun_facts (tint now : Nat) (al : List Bool) (nx : Nat)
    (q : List Buf) :
    (rtxRun tint now al nx q).1.map Buf.seqnum = q.map Buf.seqnum ∧
    (∀ b, (rtxRun tint now al nx q).2.2 = some b →
      b.seqnum ∈ q.map Buf.seqnum) := by
  unfold rtxRun
  set i := q.findIdx (fun b => b.seqnum = nx) with hi
  set ring := q.drop i ++ q.take i with hring
  have hmap := rtxScanGo_map tint now nx ring al
  have hstop := rtxScanGo_stop tint now nx ring al
  have hil : i ≤ q.length := by
    rw [hi]; exact List.findIdx_le_length _
  have hlen : (q.map Buf.seqnum).length = q.length := List.length_map ..
  have hdl : ((q.map Buf.seqnum).drop i).length = q.length - i := by
    rw [List.length_drop, hlen]
  constructor
  · have hrm : (rtxScanGo tint now nx al ring).1.map Buf.seqnum =
        (q.map Buf.seqnum).drop i ++ (q.map Buf.seqnum).take i := by
      rw [hmap, hring]
      simp [List.map_append, List.map_drop, List.map_take]
    have hdrop :
        ((rtxScanGo tint now nx al ring).1.drop (q.length - i)).map
          Buf.seqnum = (q.map Buf.seqnum).take i := by
      rw [List.map_drop, hrm, ← hdl, List.drop_left]
    have htake :
        ((rtxScanGo tint now nx al ring).1.take (q.length - i)).map
          Buf.seqnum = (q.map Buf.seqnum).drop i := by
      rw [List.map_take, hrm, ← hdl, List.take_left]
    rw [List.map_append, hdrop, htake]
    exact List.take_append_drop i (q.map Buf.seqnum)
  · intro b hb
    have hmem : b.seqnum ∈ ring.map Buf.seqnum := hstop b hb
    rw [hring, List.map_append] at hmem
    rcases List.mem_append.mp hmem with hm | hm
    · rw [List.map_drop] at hm
      exact List.mem_of_mem_drop hm
    · rw [List.map_take] at hm
      exact List.mem_of_mem_take hm

theorem rtx_tmr_cb_facts (now : Nat) (al : List Bool) (f : Flow) :
    rtxSeqs (rtx_tmr_cb now al f).1 = rtxSeqs f ∧
    (rtx_tmr_cb now al f).1.dtp.cwq = f.dtp.cwq ∧
    (rtx_tmr_cb now al f).1.dtp.next_seq_num_to_send =
      f.dtp.next_seq_num_to_send ∧
    (rtx_tmr_cb now al f).1.dtp.snd_lwe = f.dtp.snd_lwe ∧
    (rtx_tmr_cb now al f).1.dtp.snd_rwe = f.dtp.snd_rwe ∧
    (∀ n, (rtx_tmr_cb now al f).1.dtp.rtx_tmr_next = some n →
      n ∈ rtxSeqs f ∨ f.dtp.rtx_tmr_next = some n) := by
  simp only [rtx_tmr_cb]
  cases hx : f.dtp.rtx_tmr_next with
  | none => exact ⟨rfl, rfl, rfl, rfl, rfl, fun n hn => Or.inr hn⟩
  | some nx =>
    dsimp only
    obtain ⟨hmain, hstop⟩ :=
      rtxRun_facts f.dtp.rtx_tmr_int now al nx f.dtp.rtxq
    cases hst : (rtxRun f.dtp.rtx_tmr_int now al nx f.dtp.rtxq).2.2 with
    | some b =>
      dsimp only
      refine ⟨hmain, rfl, rfl, rfl, rfl, ?_⟩
      intro n hn
      have hbm := hstop b hst
      have hnb : n = b.seqnum := by simpa using hn.symm
      subst hnb
      exact Or.inl hbm
    | none =>
      dsimp only
      exact ⟨hmain, rfl, rfl, rfl, rfl, fun n hn => Or.inr hn⟩

theorem inv_rtx_tmr_cb {cfg : FlowCfg} (now : Nat) (al : List Bool)
    {f : Flow} (h : Inv cfg f) : Inv cfg (rtx_tmr_cb now al f).1 := by
  obtain ⟨h1, h2, h3, h4, h5, h6⟩ := rtx_tmr_cb_facts now al f
  refine inv_congr2 h1 h2 h3 h4 h5 ?_ h
  intro n hn
  rw [h1]
  rcases h6 n hn with hm | hm
  · exact hm
  · exact h.tmr_mem n hm

/-- Every reachable flow state satisfies the structural queue
invariant. -/
theorem inv_reachable {cfg : FlowCfg} {f : Flow}
    (h : Reachable cfg f) : Inv cfg f := by
  unfold Reachable at h
  induction h with
  | refl => exact inv_flow_init cfg
  | tail _ hs ih =>
    cases hs with
    | write now pushOk allocOk payload =>
      exact inv_sdu_write _ _ _ _ _ _ ih
    | ctrlRx now al c => exact inv_sdu_rx_ctrl _ _ _ _ _ ih
    | dataRx now allocOk pops rb =>
      exact inv_congr (txView_rcvData _ _ _ _ _ _) ih
    | consumed allocOk sn =>
      exact inv_congr (txView_consumed _ _ _ _) ih
    | rtxTimer now al => exact inv_rtx_tmr_cb _ _ ih
    | sndInact => exact inv_congr (txView_snd_inact _) ih

/-- C5: at every reachable state, the rtxq of a flow is strictly sorted by
seqnum in ascending order with no two entries sharing a seqnum. The step
relation Reachable includes the clone-into-rtxq step of sdu_write, the cwq
drain performed on a window update (fcPhase inside sdu_rx_ctrl) and the
ACK-driven removals (ackPhase), so the invariant being preserved by each of
them is what the induction behind inv_reachable establishes. -/
theorem C5_rtxq_strictly_sorted (cfg : FlowCfg) (f : Flow)
    (h : Reachable cfg f) :
    (rtxSeqs f).Pairwise (· < ·) ∧ (rtxSeqs f).Nodup :=
  ⟨(inv_reachable h).rtx_sorted,
   (inv_reachable h).rtx_sorted.imp Nat.ne_of_lt⟩

def cfgC5 : FlowCfg := { dtcp_present := true, rtx_control := true }

def c5f1 : Flow := (sdu_write cfgC5 10 true true 5 (flow_init cfgC5)).1

def c5f2 : Flow := (sdu_write cfgC5 10 true true 7 c5f1).1

theorem C5_rtxq_strictly_sorted_witness :
    (rtxSeqs c5f2).Pairwise (· < ·) ∧ (rtxSeqs c5f2).Nodup :=
  C5_rtxq_strictly_sorted cfgC5 c5f2
    (Relation.ReflTransGen.tail
      (Relation.ReflTransGen.single
        (Step.write 10 true true 5 (flow_init cfgC5)))
      (Step.write 10 true true 7 c5f1))

@[simp] theorem writeArm_next (cfg : FlowCfg) (now : Nat) (f : Flow) :
    (writeArm cfg now f).dtp.next_seq_num_to_send =
      f.dtp.next_seq_num_to_send := by
  unfold writeArm; split <;> rfl

@[simp] theorem writeArm_rwe (cfg : FlowCfg) (now : Nat) (f : Flow) :
    (writeArm cfg now f).dtp.snd_rwe = f.dtp.snd_rwe := by
  unfold writeArm; split <;> rfl

@[simp] theorem writeArm_set_drf (cfg : FlowCfg) (now : Nat) (f : Flow) :
    (writeArm cfg now f).dtp.set_drf = f.dtp.set_drf := by
  unfold writeArm; split <;> rfl

@[simp] theorem writeArm_stats (cfg : FlowCfg) (now : Nat) (f : Flow) :
    (writeArm cfg now f).stats = f.stats := by
  unfold writeArm; split <;> rfl

theorem writeArm_blocked_iff (cfg : FlowCfg) (now : Nat) (f : Flow) :
    writeBlocked cfg (writeArm cfg now f).dtp ↔
      writeBlocked cfg f.dtp := by
  unfold writeArm
  split <;> exact Iff.rfl

theorem core_blocked {cfg : FlowCfg} {now : Nat} {pushOk allocOk : Bool}
    {payload : Nat} {f : Flow} (h : writeBlocked cfg f.dtp) :
    sdu_write_core cfg now pushOk allocOk payload f =
      (f, .wouldBlock) := by
  unfold sdu_write_core
  rw [if_pos h]

theorem core_not_blocked {cfg : FlowCfg} {now : Nat}
    {pushOk allocOk : Bool} {payload : Nat} {f : Flow}
    (h : ¬writeBlocked cfg f.dtp) :
    (sdu_write_core cfg now pushOk allocOk payload f).2 ≠
      .wouldBlock := by
  simp only [sdu_write_core]
  split_ifs <;> simp

/-- C3: sdu_write refuses admission with WouldBlock, leaving the flow state
untouched apart from the sender-inactivity timer re-arm (so no sequence
number is assigned, no PCI stamped, nothing enqueued and the buffer not
freed), exactly when, at entry, window flow control is configured and
next_seq_num_to_send > snd_rwe and cwq_len >= max_cwq_len, or rtx control
is configured and rtxq_len >= max_rtxq_len. -/
theorem C3_write_wouldBlock (cfg : FlowCfg) (now : Nat)
    (pushOk allocOk : Bool) (payload : Nat) (f : Flow) :
    ((sdu_write cfg now pushOk allocOk payload f).2 = .wouldBlock ↔
      ((cfg.fc_win ∧ f.dtp.snd_rwe < f.dtp.next_seq_num_to_send ∧
          f.dtp.max_cwq_len ≤ f.dtp.cwq_len) ∨
        (cfg.rtx_control ∧ f.dtp.max_rtxq_len ≤ f.dtp.rtxq_len))) ∧
    ((sdu_write cfg now pushOk allocOk payload f).2 = .wouldBlock →
      (sdu_write cfg now pushOk allocOk payload f).1 =
        writeArm cfg now f) := by
  have hwb := writeArm_blocked_iff cfg now f
  by_cases hb : writeBlocked cfg f.dtp
  · have hc : sdu_write cfg now pushOk allocOk payload f =
        (writeArm cfg now f, .wouldBlock) := by
      unfold sdu_write
      exact core_blocked (hwb.mpr hb)
    rw [hc]
    exact ⟨⟨fun _ => hb, fun _ => rfl⟩, fun _ => rfl⟩
  · have hc : (sdu_write cfg now pushOk allocOk payload f).2 ≠
        .wouldBlock := by
      unfold sdu_write
      exact core_not_blocked (fun hh => hb (hwb.mp hh))
    exact ⟨⟨fun hh => absurd hh hc, fun hh => absurd hh hb⟩,
      fun hh => absurd hh hc⟩

def cfgC3 : FlowCfg := { dtcp_present := true, rtx_control := true }

def c3f : Flow :=
  { flow_init cfgC3 with dtp :=
    { (flow_init cfgC3).dtp with rtxq_len := 64 } }

theorem C3_write_wouldBlock_witness :
    (sdu_write cfgC3 0 true true 5 c3f).2 = .wouldBlock ∧
    (sdu_write cfgC3 0 true true 5 c3f).1 = writeArm cfgC3 0 c3f := by
  have h := C3_write_wouldBlock cfgC3 0 true true 5 c3f
  have hcond : (cfgC3.fc_win ∧
      c3f.dtp.snd_rwe < c3f.dtp.next_seq_num_to_send ∧
      c3f.dtp.max_cwq_len ≤ c3f.dtp.cwq_len) ∨
      (cfgC3.rtx_control ∧ c3f.dtp.max_rtxq_len ≤ c3f.dtp.rtxq_len) := by
    right
    exact ⟨rfl, by decide⟩
  exact ⟨h.1.mpr hcond, h.2 (h.1.mpr hcond)⟩

/-- C9: when the clone-into-rtxq step of sdu_write fails to allocate, the
call returns OutOfMemory with the buffer freed (the oomErr result), and
the tx_pkt and tx_byte counters are rewound to their values at entry while
tx_err is incremented. -/
theorem C9_oom_rewind (cfg : FlowCfg) (now : Nat) (payload : Nat)
    (f : Flow)
    (hnb : ¬writeBlocked cfg f.dtp)
    (hdt : cfg.dtcp_present = true)
    (hrt : cfg.rtx_control = true)
    (hwin : ¬(cfg.fc_win = true ∧
      f.dtp.snd_rwe < f.dtp.next_seq_num_to_send)) :
    (sdu_write cfg now true false payload f).2 = .oomErr ∧
    (sdu_write cfg now true false payload f).1.stats.tx_pkt =
      f.stats.tx_pkt ∧
    (sdu_write cfg now true false payload f).1.stats.tx_byte =
      f.stats.tx_byte ∧
    (sdu_write cfg now true false payload f).1.stats.tx_err =
      f.stats.tx_err + 1 := by
  have hnb2 : ¬writeBlocked cfg (writeArm cfg now f).dtp :=
    (writeArm_blocked_iff cfg now f).not.mpr hnb
  by_cases hfw : cfg.fc_win = true
  · have hw3 : ¬f.dtp.snd_rwe < f.dtp.next_seq_num_to_send :=
      fun hh => hwin ⟨hfw, hh⟩
    simp only [sdu_write, if_neg hnb2, sdu_write_core]
    simp [writeStamped, writeAdvance, writeRewind, rtxq_push, hdt, hrt,
      hfw, hw3]
  · simp only [sdu_write, if_neg hnb2, sdu_write_core]
    simp [writeStamped, writeAdvance, writeRewind, rtxq_push, hdt, hrt,
      hfw]

def cfgC9 : FlowCfg := { dtcp_present := true, rtx_control := true }

theorem C9_oom_rewind_witness :
    (sdu_write cfgC9 0 true false 5 (flow_init cfgC9)).2 = .oomErr ∧
    (sdu_write cfgC9 0 true false 5 (flow_init cfgC9)).1.stats.tx_pkt =
      (flow_init cfgC9).stats.tx_pkt ∧
    (sdu_write cfgC9 0 true false 5 (flow_init cfgC9)).1.stats.tx_byte =
      (flow_init cfgC9).stats.tx_byte ∧
    (sdu_write cfgC9 0 true false 5 (flow_init cfgC9)).1.stats.tx_err =
      (flow_init cfgC9).stats.tx_err + 1 :=
  C9_oom_rewind cfgC9 0 5 (flow_init cfgC9) (by decide) rfl rfl
    (by decide)

/-- When the armed rtxq entry is removed by the ACK loop scanning with no
armed entry, a surviving head becomes the new armed entry. -/
theorem ackLoop_none_rearm (A : Nat) :
    ∀ (l : List Buf) (b : Buf) (rest' : List Buf),
      (ackLoop A l none).1 = b :: rest' →
      (ackLoop A l none).2.2 = (some b.seqnum, some b) := by
  intro l
  induction l with
  | nil =>
    intro b rest' hb
    exact absurd hb (by simp [ackLoop])
  | cons c rest ih =>
    intro b rest' hb
    by_cases hc : c.seqnum ≤ A
    · rw [ackLoop_cons_le hc] at hb ⊢
      simp only [if_neg (by simp : ¬(none = some c.seqnum))] at hb ⊢
      exact ih b rest' hb
    · rw [ackLoop_cons_gt_none hc] at hb ⊢
      have : c = b := by
        have := congrArg List.head? hb
        simpa using this
      subst this
      rfl

/-- When the armed rtxq entry is acked away and a survivor remains, the
ACK loop re-arms at the first survivor. -/
theorem ackLoop_rearm (A : Nat) :
    ∀ (l : List Buf) (n : Nat),
      (l.map Buf.seqnum).Pairwise (· < ·) →
      n ∈ l.map Buf.seqnum →
      n ≤ A →
      ∀ b rest', (ackLoop A l (some n)).1 = b :: rest' →
        (ackLoop A l (some n)).2.2 = (some b.seqnum, some b) := by
  intro l
  induction l with
  | nil =>
    intro n _ hmem
    exact absurd hmem (by simp)
  | cons c rest ih =>
    intro n hs hmem hna b rest' hb
    obtain ⟨hhd, htl⟩ :
        (∀ a ∈ rest, c.seqnum < a.seqnum) ∧
          (rest.map Buf.seqnum).Pairwise (· < ·) := by simpa using hs
    by_cases hc : c.seqnum ≤ A
    · rw [ackLoop_cons_le hc] at hb ⊢
      by_cases he : n = c.seqnum
      · simp only [he, if_pos rfl] at hb ⊢
        exact ackLoop_none_rearm A rest b rest' hb
      · simp only [if_neg (by simpa using he :
          ¬(some n = some c.seqnum))] at hb ⊢
        have hm2 : n ∈ rest.map Buf.seqnum := by
          rcases (by simpa using hmem :
              n = c.seqnum ∨ ∃ a ∈ rest, a.seqnum = n) with h1 | h1
          · exact absurd h1 he
          · simpa using h1
        exact ih n htl hm2 hna b rest' hb
    · exfalso
      rcases (by simpa using hmem :
          n = c.seqnum ∨ ∃ a ∈ rest, a.seqnum = n) with h1 | h1
      · omega
      · obtain ⟨a, ha, he⟩ := h1
        have := hhd a ha
        omega

theorem ackPhase_arm_state {A : Nat} {f : Flow} {b : Buf}
    (ha : (ackLoop A f.dtp.rtxq f.dtp.rtx_tmr_next).2.2.2 = some b)
    (hne : (ackLoop A f.dtp.rtxq f.dtp.rtx_tmr_next).1 ≠ []) :
    (ackPhase A f).dtp.rtx_tmr_pending = true ∧
    (ackPhase A f).dtp.rtx_tmr_expiry = b.rtx_jiffies := by
  simp only [ackPhase, ha]
  have hie : (ackLoop A f.dtp.rtxq f.dtp.rtx_tmr_next).1.isEmpty =
      false := by
    simpa [List.isEmpty_iff] using hne
  simp [hie]

theorem ackPhase_empty_cancel {A : Nat} {f : Flow}
    (he : (ackPhase A f).dtp.rtxq = []) :
    (ackPhase A f).dtp.rtx_tmr_pending = false := by
  have h1 := (ackPhase_fields A f).1
  rw [h1] at he
  simp only [ackPhase]
  rw [he]
  cases hx : (ackLoop A f.dtp.rtxq f.dtp.rtx_tmr_next).2.2.2 <;>
    simp [hx]

/-- Reduction of sdu_rx_ctrl for an accepted PDU with ACK bit and subtype
ACK. -/
theorem sdu_rx_ctrl_accept_ack (cfg : FlowCfg) (now : Nat)
    (al : List Bool) {c : CtrlPdu} {f : Flow}
    (hic : c.isCtrl = true)
    (hdup : ¬(f.dtp.last_ctrl_seq_num_rcvd ≠ 0 ∧
      c.seqnum ≤ f.dtp.last_ctrl_seq_num_rcvd))
    (hab : c.ackBit = true) (hsub : c.subtype = .ack) :
    sdu_rx_ctrl cfg now al c f =
      { flow := ackPhase c.ack_nack_seq_num (ctrlAccept1 cfg now al c f).1,
        sent := (ctrlAccept1 cfg now al c f).2.1,
        accepted := true } := by
  simp [sdu_rx_ctrl, hic, hdup, hab, hsub]

/-- C4: for every accepted control PDU with the ACK bit set and subtype
ACK carrying ack_nack_seq_num = A, over any reachable flow state: after
processing no buffer with seqnum <= A remains in rtxq; if the removed
armed buffer was rtx_tmr_next (its seqnum acked) and a survivor remains,
rtx_tmr_next becomes the first surviving buffer and the rtx timer is
re-armed at that buffer's deadline; and if rtxq becomes empty, the rtx
timer is canceled. The intermediate state (ctrlAccept1 ...) is the one
after the duplicate check and the FC-bit processing, exactly where the
ACK loop of the source starts. -/
theorem C4_ack_processing (cfg : FlowCfg) (now : Nat) (al : List Bool)
    (c : CtrlPdu) (f : Flow)
    (hre : Reachable cfg f)
    (hic : c.isCtrl = true)
    (hdup : ¬(f.dtp.last_ctrl_seq_num_rcvd ≠ 0 ∧
      c.seqnum ≤ f.dtp.last_ctrl_seq_num_rcvd))
    (hab : c.ackBit = true) (hsub : c.subtype = .ack) :
    (∀ b ∈ (sdu_rx_ctrl cfg now al c f).flow.dtp.rtxq,
      c.ack_nack_seq_num < b.seqnum) ∧
    (∀ n, (ctrlAccept1 cfg now al c f).1.dtp.rtx_tmr_next = some n →
      n ≤ c.ack_nack_seq_num →
      ∀ b rest',
        (sdu_rx_ctrl cfg now al c f).flow.dtp.rtxq = b :: rest' →
        (sdu_rx_ctrl cfg now al c f).flow.dtp.rtx_tmr_next =
            some b.seqnum ∧
          (sdu_rx_ctrl cfg now al c f).flow.dtp.rtx_tmr_pending = true ∧
          (sdu_rx_ctrl cfg now al c f).flow.dtp.rtx_tmr_expiry =
            b.rtx_jiffies) ∧
    ((sdu_rx_ctrl cfg now al c f).flow.dtp.rtxq = [] →
      (sdu_rx_ctrl cfg now al c f).flow.dtp.rtx_tmr_pending = false) := by
  have hred := sdu_rx_ctrl_accept_ack cfg now al hic hdup hab hsub
  have hinv1 : Inv cfg (ctrlAccept1 cfg now al c f).1 :=
    inv_ctrlAccept1 now al c (inv_reachable hre)
  rw [hred]
  set f1 := (ctrlAccept1 cfg now al c f).1 with hf1
  set A := c.ack_nack_seq_num with hA
  obtain ⟨hrem, htmr, -, -, -, -, -, -, -, -⟩ := ackPhase_fields A f1
  refine ⟨?_, ?_, ?_⟩
  · intro b hb
    rw [hrem, ackLoop_rem] at hb
    exact dropWhile_gt A f1.dtp.rtxq hinv1.rtx_sorted b hb
  · intro n hn hna b rest' hb
    rw [hrem] at hb
    have harm := ackLoop_rearm A f1.dtp.rtxq n hinv1.rtx_sorted
      (hinv1.tmr_mem n hn) hna b rest' (hn ▸ hb)
    have harm1 : (ackLoop A f1.dtp.rtxq f1.dtp.rtx_tmr_next).2.2.1 =
        some b.seqnum := by rw [hn]; exact congrArg Prod.fst harm
    have harm2 : (ackLoop A f1.dtp.rtxq f1.dtp.rtx_tmr_next).2.2.2 =
        some b := by rw [hn]; exact congrArg Prod.snd harm
    have hne : (ackLoop A f1.dtp.rtxq f1.dtp.rtx_tmr_next).1 ≠ [] := by
      rw [hb]; exact List.cons_ne_nil b rest'
    obtain ⟨hp, he⟩ := ackPhase_arm_state harm2 hne
    exact ⟨by rw [htmr]; exact harm1, hp, he⟩
  · exact ackPhase_empty_cancel

def cfgC4 : FlowCfg := { dtcp_present := true, rtx_control := true }

def c4f1 : Flow := (sdu_write cfgC4 10 true true 5 (flow_init cfgC4)).1

def c4f2 : Flow := (sdu_write cfgC4 10 true true 7 c4f1).1

def c4pdu : CtrlPdu :=
  { isCtrl := true, ackBit := true, subtype := .ack, seqnum := 1,
    ack_nack_seq_num := 0 }

theorem C4_ack_processing_witness :
    (∀ b ∈ (sdu_rx_ctrl cfgC4 20 [] c4pdu c4f2).flow.dtp.rtxq,
      c4pdu.ack_nack_seq_num < b.seqnum) ∧
    (∀ n, (ctrlAccept1 cfgC4 20 [] c4pdu c4f2).1.dtp.rtx_tmr_next =
        some n →
      n ≤ c4pdu.ack_nack_seq_num →
      ∀ b rest',
        (sdu_rx_ctrl cfgC4 20 [] c4pdu c4f2).flow.dtp.rtxq =
          b :: rest' →
        (sdu_rx_ctrl cfgC4 20 [] c4pdu c4f2).flow.dtp.rtx_tmr_next =
            some b.seqnum ∧
          (sdu_rx_ctrl cfgC4 20 [] c4pdu c4f2).flow.dtp.rtx_tmr_pending =
            true ∧
          (sdu_rx_ctrl cfgC4 20 [] c4pdu c4f2).flow.dtp.rtx_tmr_expiry =
            b.rtx_jiffies) ∧
    ((sdu_rx_ctrl cfgC4 20 [] c4pdu c4f2).flow.dtp.rtxq = [] →
      (sdu_rx_ctrl cfgC4 20 [] c4pdu c4f2).flow.dtp.rtx_tmr_pending =
        false) :=
  C4_ack_processing cfgC4 20 [] c4pdu c4f2
    (Relation.ReflTransGen.tail
      (Relation.ReflTransGen.single
        (Step.write 10 true true 5 (flow_init cfgC4)))
      (Step.write 10 true true 7 c4f1))
    rfl (by decide) rfl rfl

/-- C10: when rmt_tx runs with may_sleep = false over an existing route
and the lower flow's write returns -EAGAIN, it returns -EAGAIN (RmtRet
retAgain) in both sub-cases: when the buffer is parked on the
deferred-send queue (queue length below RMTQ_MAX_LEN = 64) and when it is
dropped because the queue is full. The return value is retAgain either
way, so the caller cannot distinguish the two fates; in both the buffer
is consumed (fate parked or droppedFull, never handed back). -/
theorem C10_rmt_tx_eagain (isSelf : Bool) (rest : List LowerWr)
    (q : Nat) :
    (rmt_tx true isSelf false .again rest q).1 = RmtRet.retAgain ∧
    (q < RMTQ_MAX_LEN →
      (rmt_tx true isSelf false .again rest q).2.1 = RmtFate.parked) ∧
    (RMTQ_MAX_LEN ≤ q →
      (rmt_tx true isSelf false .again rest q).2.1 =
        RmtFate.droppedFull) := by
  refine ⟨?_, ?_, ?_⟩
  · by_cases hq : q < RMTQ_MAX_LEN <;>
      · simp only [rmt_tx, if_pos rfl]
        rw [rmt_tx_loop.eq_def]
        simp [hq]
  · intro hq
    simp only [rmt_tx, if_pos rfl]
    rw [rmt_tx_loop.eq_def]
    simp [hq]
  · intro hq
    have hq2 : ¬q < RMTQ_MAX_LEN := by omega
    simp only [rmt_tx, if_pos rfl]
    rw [rmt_tx_loop.eq_def]
    simp [hq2]

theorem C10_rmt_tx_eagain_witness :
    (rmt_tx true false false .again [] 0).1 = RmtRet.retAgain ∧
    (rmt_tx true false false .again [] 64).1 = RmtRet.retAgain ∧
    (rmt_tx true false false .again [] 0).2.1 = RmtFate.parked ∧
    (rmt_tx true false false .again [] 64).2.1 = RmtFate.droppedFull :=
  ⟨(C10_rmt_tx_eagain false [] 0).1,
   (C10_rmt_tx_eagain false [] 64).1,
   (C10_rmt_tx_eagain false [] 0).2.1 (by decide),
   (C10_rmt_tx_eagain false [] 64).2.2 (by decide)⟩

theorem rcvDeliver_outcome_ex (cfg : FlowCfg) (allocOk : Bool)
    (pops : List Bool) (rb : Buf) (f : Flow) :
    ∃ bufs, (rcvDeliver cfg allocOk pops rb f).outcome =
      RxOutcome.delivered bufs := ⟨_, rfl⟩

theorem rcvData_outcome_drop (cfg : FlowCfg) (now : Nat) (allocOk : Bool)
    (pops : List Bool) (rb : Buf) (f : Flow)
    (hdrf : rb.drf = false) (hge : f.dtp.rcv_lwe_priv ≤ rb.seqnum)
    (hd : dropRule cfg (rb.seqnum - f.dtp.rcv_lwe_priv)) :
    (rcvData cfg now allocOk pops rb f).outcome = .ruleDropped := by
  have hw : wsub rb.seqnum f.dtp.rcv_lwe_priv =
      rb.seqnum - f.dtp.rcv_lwe_priv := by simp [wsub, hge]
  have hnlt : ¬rb.seqnum < f.dtp.rcv_lwe_priv := not_lt.mpr hge
  by_cases hdt : cfg.dtcp_present = true <;>
  by_cases hmx : f.dtp.max_seq_num_rcvd < rb.seqnum <;>
    simp [rcvData, hdrf, hnlt, hw, hdt, hmx, hd, rcvDrop]

theorem rcvData_outcome_deliver (cfg : FlowCfg) (now : Nat)
    (allocOk : Bool) (pops : List Bool) (rb : Buf) (f : Flow)
    (hdrf : rb.drf = false) (hge : f.dtp.rcv_lwe_priv ≤ rb.seqnum)
    (hnd : ¬dropRule cfg (rb.seqnum - f.dtp.rcv_lwe_priv))
    (hg : rb.seqnum - f.dtp.rcv_lwe_priv ≤ cfg.max_sdu_gap) :
    ∃ bufs, (rcvData cfg now allocOk pops rb f).outcome =
      RxOutcome.delivered bufs := by
  have hw : wsub rb.seqnum f.dtp.rcv_lwe_priv =
      rb.seqnum - f.dtp.rcv_lwe_priv := by simp [wsub, hge]
  have hnlt : ¬rb.seqnum < f.dtp.rcv_lwe_priv := not_lt.mpr hge
  by_cases hdt : cfg.dtcp_present = true <;>
  by_cases hmx : f.dtp.max_seq_num_rcvd < rb.seqnum <;>
    (simp [rcvData, hdrf, hnlt, hw, hdt, hmx, hnd, hg]
     try exact rcvDeliver_outcome_ex _ _ _ _ _)

theorem rcvData_outcome_hold (cfg : FlowCfg) (now : Nat)
    (allocOk : Bool) (pops : List Bool) (rb : Buf) (f : Flow)
    (hdrf : rb.drf = false) (hge : f.dtp.rcv_lwe_priv ≤ rb.seqnum)
    (hnd : ¬dropRule cfg (rb.seqnum - f.dtp.rcv_lwe_priv))
    (hng : ¬rb.seqnum - f.dtp.rcv_lwe_priv ≤ cfg.max_sdu_gap) :
    (rcvData cfg now allocOk pops rb f).outcome = .toSeqq := by
  have hw : wsub rb.seqnum f.dtp.rcv_lwe_priv =
      rb.seqnum - f.dtp.rcv_lwe_priv := by simp [wsub, hge]
  have hnlt : ¬rb.seqnum < f.dtp.rcv_lwe_priv := not_lt.mpr hge
  by_cases hdt : cfg.dtcp_present = true <;>
  by_cases hmx : f.dtp.max_seq_num_rcvd < rb.seqnum <;>
    simp [rcvData, hdrf, hnlt, hw, hdt, hmx, hnd, hng, rcvHold]

/-- C6: for a received data PDU with the DRF flag clear and seqnum not
below rcv_lwe_priv, with gap = seqnum - rcv_lwe_priv: the PDU is dropped
iff (in_order_delivery or dtcp_present) and the A timer is 0 and rtx
control is off and gap > max_sdu_gap; it is delivered upward iff it is
not dropped and gap <= max_sdu_gap; and it is held in seqq iff it is not
dropped and gap > max_sdu_gap. -/
theorem C6_rx_classification (cfg : FlowCfg) (now : Nat) (allocOk : Bool)
    (pops : List Bool) (rb : Buf) (f : Flow)
    (hdrf : rb.drf = false)
    (hge : f.dtp.rcv_lwe_priv ≤ rb.seqnum) :
    ((rcvData cfg now allocOk pops rb f).outcome = .ruleDropped ↔
      (cfg.in_order_delivery = true ∨ cfg.dtcp_present = true) ∧
        aTimer = 0 ∧ cfg.rtx_control = false ∧
        cfg.max_sdu_gap < rb.seqnum - f.dtp.rcv_lwe_priv) ∧
    ((∃ bufs, (rcvData cfg now allocOk pops rb f).outcome =
        .delivered bufs) ↔
      ¬dropRule cfg (rb.seqnum - f.dtp.rcv_lwe_priv) ∧
        rb.seqnum - f.dtp.rcv_lwe_priv ≤ cfg.max_sdu_gap) ∧
    ((rcvData cfg now allocOk pops rb f).outcome = .toSeqq ↔
      ¬dropRule cfg (rb.seqnum - f.dtp.rcv_lwe_priv) ∧
        cfg.max_sdu_gap < rb.seqnum - f.dtp.rcv_lwe_priv) := by
  have hdr : dropRule cfg (rb.seqnum - f.dtp.rcv_lwe_priv) ↔
      ((cfg.in_order_delivery = true ∨ cfg.dtcp_present = true) ∧
        aTimer = 0 ∧ cfg.rtx_control = false ∧
        cfg.max_sdu_gap < rb.seqnum - f.dtp.rcv_lwe_priv) := by
    simp [dropRule, aTimer]
  rw [← hdr]
  by_cases hd : dropRule cfg (rb.seqnum - f.dtp.rcv_lwe_priv)
  · have hg : ¬rb.seqnum - f.dtp.rcv_lwe_priv ≤ cfg.max_sdu_gap := by
      have := (hdr.mp hd).2.2.2
      omega
    have ho := rcvData_outcome_drop cfg now allocOk pops rb f hdrf hge hd
    simp [ho, hd, hg]
  · by_cases hg : rb.seqnum - f.dtp.rcv_lwe_priv ≤ cfg.max_sdu_gap
    · obtain ⟨bufs, hb⟩ :=
        rcvData_outcome_deliver cfg now allocOk pops rb f hdrf hge hd hg
      have hg2 : ¬cfg.max_sdu_gap < rb.seqnum - f.dtp.rcv_lwe_priv :=
        not_lt.mpr hg
      simp [hb, hd, hg, hg2]
    · have ho :=
        rcvData_outcome_hold cfg now allocOk pops rb f hdrf hge hd hg
      have hg2 : cfg.max_sdu_gap < rb.seqnum - f.dtp.rcv_lwe_priv := by
        omega
      simp [ho, hd, hg2]
      omega

def cfgC6 : FlowCfg := { dtcp_present := true }

def c6rb : Buf := { seqnum := 3, len := 1 }

theorem C6_rx_classification_witness :
    ((rcvData cfgC6 0 true [] c6rb (flow_init cfgC6)).outcome =
        .ruleDropped ↔
      (cfgC6.in_order_delivery = true ∨ cfgC6.dtcp_present = true) ∧
        aTimer = 0 ∧ cfgC6.rtx_control = false ∧
        cfgC6.max_sdu_gap <
          c6rb.seqnum - (flow_init cfgC6).dtp.rcv_lwe_priv) ∧
    ((∃ bufs, (rcvData cfgC6 0 true [] c6rb (flow_init cfgC6)).outcome =
        .delivered bufs) ↔
      ¬dropRule cfgC6
          (c6rb.seqnum - (flow_init cfgC6).dtp.rcv_lwe_priv) ∧
        c6rb.seqnum - (flow_init cfgC6).dtp.rcv_lwe_priv ≤
          cfgC6.max_sdu_gap) ∧
    ((rcvData cfgC6 0 true [] c6rb (flow_init cfgC6)).outcome =
        .toSeqq ↔
      ¬dropRule cfgC6
          (c6rb.seqnum - (flow_init cfgC6).dtp.rcv_lwe_priv) ∧
        cfgC6.max_sdu_gap <
          c6rb.seqnum - (flow_init cfgC6).dtp.rcv_lwe_priv) :=
  C6_rx_classification cfgC6 0 true [] c6rb (flow_init cfgC6) rfl
    (by decide)

theorem drainStep_last (cfg : FlowCfg) (now : Nat) (al : List Bool)
    (q : Buf) (f : Flow) :
    (drainStep cfg now al q f).1.dtp.last_seq_num_sent =
      f.dtp.snd_lwe := by
  unfold drainStep
  split
  · rw [(rtxq_push_facts now (takeOra al).1 q
      (drainPop f)).2.2.2.2.2.2.1]
    rfl
  · rfl

theorem rtxq_push_rtxq_ok (now : Nat) (rb : Buf) (f : Flow) :
    (rtxq_push now true rb f).1.dtp.rtxq =
      f.dtp.rtxq ++
        [{ rb with rtx_jiffies := now + f.dtp.rtx_tmr_int }] := by
  simp only [rtxq_push]
  split
  · split <;> rfl
  · simp_all

theorem rtxq_push_tint (now : Nat) (ok : Bool) (rb : Buf) (f : Flow) :
    (rtxq_push now ok rb f).1.dtp.rtx_tmr_int = f.dtp.rtx_tmr_int := by
  simp only [rtxq_push]
  split
  · split <;> rfl
  · rfl

theorem drainStep_rtx_nil (cfg : FlowCfg) (now : Nat) (q : Buf)
    (f : Flow) (hrt : cfg.rtx_control = true) :
    drainStep cfg now [] q f =
      ((rtxq_push now true q (drainPop f)).1, []) := by
  simp [drainStep, hrt, takeOra]

/-- Characterisation of the cwq drain loop: it pops exactly
snd_rwe - snd_lwe buffers (clipped at the queue length) off the front in
FIFO order, advancing snd_lwe by one per pop and leaving
last_seq_num_sent at the seqnum-position of the last pop. -/
theorem cwqDrainGo_spec (cfg : FlowCfg) (now : Nat) :
    ∀ (q : List Buf) (al : List Bool) (f : Flow),
      (cwqDrainGo cfg now al q f).2.1 =
        q.take (f.dtp.snd_rwe - f.dtp.snd_lwe) ∧
      (cwqDrainGo cfg now al q f).1.dtp.cwq =
        q.drop (f.dtp.snd_rwe - f.dtp.snd_lwe) ∧
      (cwqDrainGo cfg now al q f).1.dtp.snd_lwe =
        f.dtp.snd_lwe + min q.length (f.dtp.snd_rwe - f.dtp.snd_lwe) ∧
      (cwqDrainGo cfg now al q f).1.dtp.snd_rwe = f.dtp.snd_rwe ∧
      (cwqDrainGo cfg now al q f).1.dtp.last_seq_num_sent =
        (if min q.length (f.dtp.snd_rwe - f.dtp.snd_lwe) = 0
         then f.dtp.last_seq_num_sent
         else f.dtp.snd_lwe +
           min q.length (f.dtp.snd_rwe - f.dtp.snd_lwe) - 1) := by
  intro q
  induction q with
  | nil =>
    intro al f
    rw [cwqDrainGo_nil]
    simp
  | cons c rest ih =>
    intro al f
    by_cases hstop : f.dtp.snd_rwe ≤ f.dtp.snd_lwe
    · have h0 : f.dtp.snd_rwe - f.dtp.snd_lwe = 0 := by omega
      rw [cwqDrainGo_cons_stop hstop]
      simp [h0]
    · rw [cwqDrainGo_cons_go hstop]
      obtain ⟨-, -, hlwe, hrwe, -, -, -, -, -⟩ :=
        drainStep_facts cfg now al c f
      have hlast := drainStep_last cfg now al c f
      obtain ⟨i1, i2, i3, i4, i5⟩ :=
        ih (drainStep cfg now al c f).2 (drainStep cfg now al c f).1
      have harith : (drainStep cfg now al c f).1.dtp.snd_rwe -
          (drainStep cfg now al c f).1.dtp.snd_lwe =
          f.dtp.snd_rwe - f.dtp.snd_lwe - 1 := by
        rw [hlwe, hrwe]; omega
      have htk : (c :: rest).take (f.dtp.snd_rwe - f.dtp.snd_lwe) =
          c :: rest.take (f.dtp.snd_rwe - f.dtp.snd_lwe - 1) := by
        have he : f.dtp.snd_rwe - f.dtp.snd_lwe =
            (f.dtp.snd_rwe - f.dtp.snd_lwe - 1) + 1 := by omega
        nth_rewrite 1 [he]
        rw [List.take_succ_cons]
      have hdp : (c :: rest).drop (f.dtp.snd_rwe - f.dtp.snd_lwe) =
          rest.drop (f.dtp.snd_rwe - f.dtp.snd_lwe - 1) := by
        have he : f.dtp.snd_rwe - f.dtp.snd_lwe =
            (f.dtp.snd_rwe - f.dtp.snd_lwe - 1) + 1 := by omega
        nth_rewrite 1 [he]
        rw [List.drop_succ_cons]
      refine ⟨?_, ?_, ?_, ?_, ?_⟩
      · rw [htk]
        simp only [i1, harith]
      · rw [hdp]
        simp only [i2, harith]
      · rw [i3, harith, hlwe]
        simp only [List.length_cons]
        omega
      · rw [i4, hrwe]
      · rw [i5, harith, hlwe, hlast]
        simp only [List.length_cons]
        split_ifs <;> omega

/-- The cwq drain with rtx control on and an all-success clone oracle
appends each drained buffer to rtxq with the fresh deadline
now + rtx_tmr_int. -/
theorem cwqDrainGo_rtx_append (cfg : FlowCfg) (now : Nat)
    (hrt : cfg.rtx_control = true) :
    ∀ (q : List Buf) (f : Flow),
      (cwqDrainGo cfg now [] q f).1.dtp.rtxq =
        f.dtp.rtxq ++
          (q.take (f.dtp.snd_rwe - f.dtp.snd_lwe)).map
            (fun b =>
              { b with rtx_jiffies := now + f.dtp.rtx_tmr_int }) := by
  intro q
  induction q with
  | nil =>
    intro f
    rw [cwqDrainGo_nil]
    simp
  | cons c rest ih =>
    intro f
    by_cases hstop : f.dtp.snd_rwe ≤ f.dtp.snd_lwe
    · have h0 : f.dtp.snd_rwe - f.dtp.snd_lwe = 0 := by omega
      rw [cwqDrainGo_cons_stop hstop]
      simp [h0]
    · rw [cwqDrainGo_cons_go hstop]
      rw [drainStep_rtx_nil cfg now c f hrt]
      rw [ih (rtxq_push now true c (drainPop f)).1]
      have h1 : (rtxq_push now true c (drainPop f)).1.dtp.rtxq =
          f.dtp.rtxq ++
            [{ c with rtx_jiffies := now + f.dtp.rtx_tmr_int }] := by
        have := rtxq_push_rtxq_ok now c (drainPop f)
        simpa [drainPop] using this
      have h2 : (rtxq_push now true c (drainPop f)).1.dtp.snd_rwe =
          f.dtp.snd_rwe := by
        rw [(rtxq_push_facts now true c (drainPop f)).2.2.2.1]
        rfl
      have h3 : (rtxq_push now true c (drainPop f)).1.dtp.snd_lwe =
          f.dtp.snd_lwe + 1 := by
        rw [(rtxq_push_facts now true c (drainPop f)).2.2.1]
        rfl
      have h4 : (rtxq_push now true c (drainPop f)).1.dtp.rtx_tmr_int =
          f.dtp.rtx_tmr_int := by
        rw [rtxq_push_tint]
        rfl
      rw [h1, h2, h3, h4]
      have htk : (c :: rest).take (f.dtp.snd_rwe - f.dtp.snd_lwe) =
          c :: rest.take (f.dtp.snd_rwe - f.dtp.snd_lwe - 1) := by
        have he : f.dtp.snd_rwe - f.dtp.snd_lwe =
            (f.dtp.snd_rwe - f.dtp.snd_lwe - 1) + 1 := by omega
        nth_rewrite 1 [he]
        rw [List.take_succ_cons]
      have harith : f.dtp.snd_rwe - (f.dtp.snd_lwe + 1) =
          f.dtp.snd_rwe - f.dtp.snd_lwe - 1 := by omega
      rw [htk, harith]
      simp

/-- Reduction of sdu_rx_ctrl for an accepted PDU without the ACK bit:
only the duplicate bookkeeping and the FC processing run. -/
theorem sdu_rx_ctrl_accept_noack (cfg : FlowCfg) (now : Nat)
    (al : List Bool) {c : CtrlPdu} {f : Flow}
    (hic : c.isCtrl = true)
    (hdup : ¬(f.dtp.last_ctrl_seq_num_rcvd ≠ 0 ∧
      c.seqnum ≤ f.dtp.last_ctrl_seq_num_rcvd))
    (hnab : c.ackBit = false) :
    sdu_rx_ctrl cfg now al c f =
      { flow := (ctrlAccept1 cfg now al c f).1,
        sent := (ctrlAccept1 cfg now al c f).2.1,
        accepted := true } := by
  simp [sdu_rx_ctrl, hic, hdup, hnab]

theorem ctrlAccept1_fc (cfg : FlowCfg) (now : Nat) (al : List Bool)
    (c : CtrlPdu) (f : Flow) (hfc : c.fcBit = true) :
    ctrlAccept1 cfg now al c f =
      fcPhase cfg now al c.new_rwe
        { f with dtp :=
          { f.dtp with last_ctrl_seq_num_rcvd := c.seqnum } } := by
  simp [ctrlAccept1, hfc]

theorem fcPhase_ignore (cfg : FlowCfg) (now : Nat) (al : List Bool)
    (new_rwe : Nat) (f : Flow) (hlt : new_rwe < f.dtp.snd_rwe) :
    fcPhase cfg now al new_rwe f = (f, [], al) := by
  simp [fcPhase, hlt]

theorem fcPhase_update (cfg : FlowCfg) (now : Nat) (al : List Bool)
    (new_rwe : Nat) (f : Flow) (hge : ¬new_rwe < f.dtp.snd_rwe) :
    fcPhase cfg now al new_rwe f =
      cwqDrainGo cfg now al f.dtp.cwq
        { f with dtp := { f.dtp with snd_rwe := new_rwe } } := by
  simp [fcPhase, hge]

/-- C7: for every accepted control PDU with the FC bit set (and no ACK
bit, isolating the FC processing): when new_rwe < snd_rwe the update is
ignored and snd_rwe, cwq, snd_lwe are unchanged with nothing dispatched;
otherwise snd_rwe becomes new_rwe and the first new_rwe - snd_lwe
buffers of cwq (clipped at its length) are drained in FIFO order for
post-lock dispatch via RMT, snd_lwe advancing by one per drained buffer,
last_seq_num_sent finishing at the old snd_lwe of the last drained
buffer, and — when rtx control is on and the clone allocations succeed —
each drained buffer appended to rtxq with the fresh deadline
now + rtx_tmr_int. -/
theorem C7_fc_window (cfg : FlowCfg) (now : Nat) (al : List Bool)
    (c : CtrlPdu) (f : Flow)
    (hic : c.isCtrl = true)
    (hdup : ¬(f.dtp.last_ctrl_seq_num_rcvd ≠ 0 ∧
      c.seqnum ≤ f.dtp.last_ctrl_seq_num_rcvd))
    (hfc : c.fcBit = true) (hnab : c.ackBit = false) :
    (c.new_rwe < f.dtp.snd_rwe →
      (sdu_rx_ctrl cfg now al c f).flow.dtp.snd_rwe = f.dtp.snd_rwe ∧
      (sdu_rx_ctrl cfg now al c f).flow.dtp.cwq = f.dtp.cwq ∧
      (sdu_rx_ctrl cfg now al c f).flow.dtp.snd_lwe = f.dtp.snd_lwe ∧
      (sdu_rx_ctrl cfg now al c f).sent = []) ∧
    (f.dtp.snd_rwe ≤ c.new_rwe →
      (sdu_rx_ctrl cfg now al c f).flow.dtp.snd_rwe = c.new_rwe ∧
      (sdu_rx_ctrl cfg now al c f).sent =
        f.dtp.cwq.take (c.new_rwe - f.dtp.snd_lwe) ∧
      (sdu_rx_ctrl cfg now al c f).flow.dtp.cwq =
        f.dtp.cwq.drop (c.new_rwe - f.dtp.snd_lwe) ∧
      (sdu_rx_ctrl cfg now al c f).flow.dtp.snd_lwe =
        f.dtp.snd_lwe +
          min f.dtp.cwq.length (c.new_rwe - f.dtp.snd_lwe) ∧
      ((sdu_rx_ctrl cfg now al c f).flow.dtp.last_seq_num_sent =
        if min f.dtp.cwq.length (c.new_rwe - f.dtp.snd_lwe) = 0
        then f.dtp.last_seq_num_sent
        else f.dtp.snd_lwe +
          min f.dtp.cwq.length (c.new_rwe - f.dtp.snd_lwe) - 1) ∧
      (cfg.rtx_control = true → al = [] →
        (sdu_rx_ctrl cfg now al c f).flow.dtp.rtxq =
          f.dtp.rtxq ++
            (f.dtp.cwq.take (c.new_rwe - f.dtp.snd_lwe)).map
              (fun b =>
                { b with
                  rtx_jiffies := now + f.dtp.rtx_tmr_int }))) := by
  have hred := sdu_rx_ctrl_accept_noack cfg now al hic hdup hnab
  rw [hred, ctrlAccept1_fc cfg now al c f hfc]
  set f1 : Flow :=
    { f with dtp :=
      { f.dtp with last_ctrl_seq_num_rcvd := c.seqnum } } with hf1
  dsimp only
  constructor
  · intro hlt
    have hlt1 : c.new_rwe < f1.dtp.snd_rwe := hlt
    rw [fcPhase_ignore cfg now al c.new_rwe f1 hlt1]
    exact ⟨rfl, rfl, rfl, rfl⟩
  · intro hge
    have hnlt : ¬c.new_rwe < f1.dtp.snd_rwe := not_lt.mpr hge
    rw [fcPhase_update cfg now al c.new_rwe f1 hnlt]
    set f2 : Flow :=
      { f1 with dtp := { f1.dtp with snd_rwe := c.new_rwe } } with hf2
    have e1 : f1.dtp.cwq = f.dtp.cwq := by rw [hf1]
    have e2 : f2.dtp.snd_rwe = c.new_rwe := by rw [hf2]
    have e3 : f2.dtp.snd_lwe = f.dtp.snd_lwe := by rw [hf2, hf1]
    have e5 : f2.dtp.last_seq_num_sent = f.dtp.last_seq_num_sent := by
      rw [hf2, hf1]
    have e6 : f2.dtp.rtxq = f.dtp.rtxq := by rw [hf2, hf1]
    have e7 : f2.dtp.rtx_tmr_int = f.dtp.rtx_tmr_int := by rw [hf2, hf1]
    obtain ⟨s1, s2, s3, s4, s5⟩ :=
      cwqDrainGo_spec cfg now f1.dtp.cwq al f2
    refine ⟨?_, ?_, ?_, ?_, ?_, ?_⟩
    · rw [s4, e2]
    · rw [s1, e1, e2, e3]
    · rw [s2, e1, e2, e3]
    · rw [s3, e1, e2, e3]
    · rw [s5, e1, e2, e3, e5]
    · intro hrt hal
      subst hal
      rw [cwqDrainGo_rtx_append cfg now hrt f1.dtp.cwq f2, e1, e2, e3,
        e6, e7]

def cfgC7 : FlowCfg :=
  { dtcp_present := true, flow_control := true, fc_win := true,
    initial_credit := 2, max_cwq_len := 4, rtx_control := true }

def c7f1 : Flow := (sdu_write cfgC7 10 true true 1 (flow_init cfgC7)).1

def c7f2 : Flow := (sdu_write cfgC7 10 true true 1 c7f1).1

def c7f3 : Flow := (sdu_write cfgC7 10 true true 1 c7f2).1

def c7f4 : Flow := (sdu_write cfgC7 10 true true 1 c7f3).1

def c7pdu : CtrlPdu :=
  { isCtrl := true, fcBit := true, seqnum := 1, new_rwe := 4 }

theorem C7_fc_window_witness :
    (c7pdu.new_rwe < c7f4.dtp.snd_rwe →
      (sdu_rx_ctrl cfgC7 20 [] c7pdu c7f4).flow.dtp.snd_rwe =
        c7f4.dtp.snd_rwe ∧
      (sdu_rx_ctrl cfgC7 20 [] c7pdu c7f4).flow.dtp.cwq =
        c7f4.dtp.cwq ∧
      (sdu_rx_ctrl cfgC7 20 [] c7pdu c7f4).flow.dtp.snd_lwe =
        c7f4.dtp.snd_lwe ∧
      (sdu_rx_ctrl cfgC7 20 [] c7pdu c7f4).sent = []) ∧
    (c7f4.dtp.snd_rwe ≤ c7pdu.new_rwe →
      (sdu_rx_ctrl cfgC7 20 [] c7pdu c7f4).flow.dtp.snd_rwe =
        c7pdu.new_rwe ∧
      (sdu_rx_ctrl cfgC7 20 [] c7pdu c7f4).sent =
        c7f4.dtp.cwq.take (c7pdu.new_rwe - c7f4.dtp.snd_lwe) ∧
      (sdu_rx_ctrl cfgC7 20 [] c7pdu c7f4).flow.dtp.cwq =
        c7f4.dtp.cwq.drop (c7pdu.new_rwe - c7f4.dtp.snd_lwe) ∧
      (sdu_rx_ctrl cfgC7 20 [] c7pdu c7f4).flow.dtp.snd_lwe =
        c7f4.dtp.snd_lwe +
          min c7f4.dtp.cwq.length (c7pdu.new_rwe - c7f4.dtp.snd_lwe) ∧
      ((sdu_rx_ctrl cfgC7 20 [] c7pdu c7f4).flow.dtp.last_seq_num_sent =
        if min c7f4.dtp.cwq.length
            (c7pdu.new_rwe - c7f4.dtp.snd_lwe) = 0
        then c7f4.dtp.last_seq_num_sent
        else c7f4.dtp.snd_lwe +
          min c7f4.dtp.cwq.length
            (c7pdu.new_rwe - c7f4.dtp.snd_lwe) - 1) ∧
      (cfgC7.rtx_control = true → ([] : List Bool) = [] →
        (sdu_rx_ctrl cfgC7 20 [] c7pdu c7f4).flow.dtp.rtxq =
          c7f4.dtp.rtxq ++
            (c7f4.dtp.cwq.take
                (c7pdu.new_rwe - c7f4.dtp.snd_lwe)).map
              (fun b =>
                { b with
                  rtx_jiffies := 20 + c7f4.dtp.rtx_tmr_int }))) :=
  C7_fc_window cfgC7 20 [] c7pdu c7f4 rfl (by decide) rfl rfl

theorem seqq_pop_loop_nil {gap lwe : Nat} :
    seqq_pop_loop gap [] lwe = ([], [], lwe) := rfl

theorem seqq_pop_loop_cons_pop {gap : Nat} {q : Buf} {rest : List Buf}
    {lwe : Nat} (h : wsub q.seqnum lwe ≤ gap) :
    seqq_pop_loop gap (q :: rest) lwe =
      ((seqq_pop_loop gap rest (q.seqnum + 1)).1,
       q :: (seqq_pop_loop gap rest (q.seqnum + 1)).2.1,
       (seqq_pop_loop gap rest (q.seqnum + 1)).2.2) := by
  simp [seqq_pop_loop, h]

theorem seqq_pop_loop_cons_stop {gap : Nat} {q : Buf} {rest : List Buf}
    {lwe : Nat} (h : ¬wsub q.seqnum lwe ≤ gap) :
    seqq_pop_loop gap (q :: rest) lwe =
      (q :: (seqq_pop_loop gap rest lwe).1,
       (seqq_pop_loop gap rest lwe).2.1,
       (seqq_pop_loop gap rest lwe).2.2) := by
  simp [seqq_pop_loop, h]

/-- The seqq scan pops nothing when every entry is out of the gap
window. -/
theorem seqq_pop_loop_none (gap : Nat) :
    ∀ (l : List Buf) (lwe : Nat),
      (∀ b ∈ l, lwe ≤ b.seqnum) →
      (∀ b ∈ l, gap < b.seqnum - lwe) →
      seqq_pop_loop gap l lwe = (l, [], lwe) := by
  intro l
  induction l with
  | nil => intro lwe _ _; rfl
  | cons q rest ih =>
    intro lwe hab hfail
    have hql : lwe ≤ q.seqnum := hab q (List.mem_cons_self q rest)
    have hwq : wsub q.seqnum lwe = q.seqnum - lwe := by
      simp [wsub, hql]
    have hc : ¬wsub q.seqnum lwe ≤ gap := by
      rw [hwq]
      have := hfail q (List.mem_cons_self q rest)
      omega
    rw [seqq_pop_loop_cons_stop hc,
      ih lwe (fun b hb => hab b (List.mem_cons_of_mem _ hb))
        (fun b hb => hfail b (List.mem_cons_of_mem _ hb))]

/-- Characterisation of the seqq pop scan on a sorted queue whose entries
all lie at or above the current left window edge: it pops a prefix, in
ascending order, each popped buffer in the gap window of the
left-window-edge threaded past every previous pop, stops at the first
entry out of the window, and returns the edge advanced past the last
popped buffer. -/
theorem seqq_pop_loop_char (gap : Nat) :
    ∀ (l : List Buf) (lwe : Nat),
      (l.map Buf.seqnum).Pairwise (· < ·) →
      (∀ b ∈ l, lwe ≤ b.seqnum) →
      ∃ n,
        (seqq_pop_loop gap l lwe).2.1 = l.take n ∧
        (seqq_pop_loop gap l lwe).1 = l.drop n ∧
        (seqq_pop_loop gap l lwe).2.2 =
          (l.take n).foldl (fun _ b => b.seqnum + 1) lwe ∧
        (∀ b, (l.take n).head? = some b → b.seqnum - lwe ≤ gap) ∧
        (l.take n).Chain'
          (fun a b => b.seqnum - (a.seqnum + 1) ≤ gap) ∧
        (∀ b, (l.drop n).head? = some b →
          gap < b.seqnum -
            (l.take n).foldl (fun _ b => b.seqnum + 1) lwe) := by
  intro l
  induction l with
  | nil =>
    intro lwe _ _
    exact ⟨0, by simp [seqq_pop_loop_nil]⟩
  | cons q rest ih =>
    intro lwe hs hab
    have hql : lwe ≤ q.seqnum := hab q (List.mem_cons_self q rest)
    have hwq : wsub q.seqnum lwe = q.seqnum - lwe := by
      simp [wsub, hql]
    obtain ⟨hhd, htl⟩ :
        (∀ a ∈ rest, q.seqnum < a.seqnum) ∧
          (rest.map Buf.seqnum).Pairwise (· < ·) := by simpa using hs
    by_cases hc : wsub q.seqnum lwe ≤ gap
    · obtain ⟨n, i1, i2, i3, i4, i5, i6⟩ := ih (q.seqnum + 1) htl
        (fun b hb => hhd b hb)
      refine ⟨n + 1, ?_, ?_, ?_, ?_, ?_, ?_⟩
      · rw [seqq_pop_loop_cons_pop hc, List.take_succ_cons, i1]
      · rw [seqq_pop_loop_cons_pop hc, List.drop_succ_cons, i2]
      · rw [seqq_pop_loop_cons_pop hc, List.take_succ_cons]
        simpa using i3
      · intro b hb
        rw [List.take_succ_cons] at hb
        injection hb with hbe
        subst hbe
        rw [hwq] at hc
        exact hc
      · rw [List.take_succ_cons, List.chain'_cons']
        refine ⟨?_, i5⟩
        intro b hb
        exact i4 b (by simpa using hb)
      · intro b hb
        rw [List.drop_succ_cons] at hb
        have := i6 b hb
        rw [List.take_succ_cons]
        simpa using this
    · have hfail : ∀ b ∈ q :: rest, gap < b.seqnum - lwe := by
        intro b hb
        rcases List.mem_cons.mp hb with hbe | hbm
        · subst hbe
          rw [hwq] at hc
          omega
        · have h1 := hhd b hbm
          rw [hwq] at hc
          omega
      rw [seqq_pop_loop_none gap (q :: rest) lwe hab hfail]
      refine ⟨0, rfl, rfl, rfl, ?_, ?_, ?_⟩
      · intro b hb
        simp at hb
      · simp
      · intro b hb
        simp only [List.drop_zero, List.head?_cons] at hb
        injection hb with hbe
        subst hbe
        simp only [List.take_zero, List.foldl_nil]
        exact hfail q (List.mem_cons_self q rest)

theorem popDeliver_nil : ∀ l : List Buf, popDeliver [] l = l := by
  intro l
  induction l with
  | nil => rfl
  | cons b rest ih => simp [popDeliver, takeOra, ih]

theorem sv_update_seqq (cfg : FlowCfg) (ok : Bool) (f : Flow) :
    (sdu_rx_sv_update cfg ok f).1.dtp.seqq = f.dtp.seqq := by
  simp only [sdu_rx_sv_update, ctrl_pdu_alloc]
  split_ifs <;> rfl

theorem sv_update_priv (cfg : FlowCfg) (ok : Bool) (f : Flow) :
    (sdu_rx_sv_update cfg ok f).1.dtp.rcv_lwe_priv =
      f.dtp.rcv_lwe_priv := by
  simp only [sdu_rx_sv_update, ctrl_pdu_alloc]
  split_ifs <;> rfl

/-- The deliver branch with an all-success pop oracle: new seqq, new
rcv_lwe_priv and the delivered buffers all come from the seqq pop scan
started at rb.seqnum + 1. -/
theorem rcvDeliver_fields (cfg : FlowCfg) (ok : Bool) (rb : Buf)
    (f : Flow) :
    (rcvDeliver cfg ok [] rb f).flow.dtp.seqq =
      (seqq_pop_loop cfg.max_sdu_gap f.dtp.seqq (rb.seqnum + 1)).1 ∧
    (rcvDeliver cfg ok [] rb f).flow.dtp.rcv_lwe_priv =
      (seqq_pop_loop cfg.max_sdu_gap f.dtp.seqq (rb.seqnum + 1)).2.2 ∧
    (rcvDeliver cfg ok [] rb f).outcome =
      .delivered
        (rb ::
          (seqq_pop_loop cfg.max_sdu_gap f.dtp.seqq
            (rb.seqnum + 1)).2.1) := by
  by_cases hup : cfg.hasUpper = true <;>
    simp [rcvDeliver, seqq_pop_many, hup, popDeliver_nil, takeOra,
      sv_update_seqq, sv_update_priv]

/-- The rcv-inactivity and max_seq_num_rcvd bookkeeping of
rlite_normal_sdu_rx that precedes the drop/deliver/hold decision. -/
def rxMod (cfg : FlowCfg) (now : Nat) (rb : Buf) (f : Flow) : Flow :=
  let f :=
    if cfg.dtcp_present then
      { f with dtp :=
        { f.dtp with rcv_inact_expiry := now + 2 * f.dtp.mpl_r_a } }
    else f
  if f.dtp.max_seq_num_rcvd < rb.seqnum then
    { f with dtp := { f.dtp with max_seq_num_rcvd := rb.seqnum } }
  else f

theorem rxMod_seqq (cfg : FlowCfg) (now : Nat) (rb : Buf) (f : Flow) :
    (rxMod cfg now rb f).dtp.seqq = f.dtp.seqq := by
  simp only [rxMod]
  split <;> split <;> rfl

theorem rcvData_deliver_eq (cfg : FlowCfg) (now : Nat) (allocOk : Bool)
    (pops : List Bool) (rb : Buf) (f : Flow)
    (hdrf : rb.drf = false) (hge : f.dtp.rcv_lwe_priv ≤ rb.seqnum)
    (hnd : ¬dropRule cfg (rb.seqnum - f.dtp.rcv_lwe_priv))
    (hg : rb.seqnum - f.dtp.rcv_lwe_priv ≤ cfg.max_sdu_gap) :
    rcvData cfg now allocOk pops rb f =
      rcvDeliver cfg allocOk pops rb (rxMod cfg now rb f) := by
  have hw : wsub rb.seqnum f.dtp.rcv_lwe_priv =
      rb.seqnum - f.dtp.rcv_lwe_priv := by simp [wsub, hge]
  have hnlt : ¬rb.seqnum < f.dtp.rcv_lwe_priv := not_lt.mpr hge
  by_cases hdt : cfg.dtcp_present = true <;>
  by_cases hmx : f.dtp.max_seq_num_rcvd < rb.seqnum <;>
    simp [rcvData, rxMod, hdrf, hnlt, hw, hdt, hmx, hnd, hg]

/-- S2 configuration: max_sdu_gap = 0, rtx control on, upper IPCP
bound. -/
def cfgC8 : FlowCfg :=
  { dtcp_present := true, flow_control := true, rtx_control := true,
    max_sdu_gap := 0, hasUpper := true }

def c8r0 : RxResult :=
  rcvData cfgC8 0 true [] { seqnum := 0, len := 1 } (flow_init cfgC8)

def c8r2 : RxResult :=
  rcvData cfgC8 0 true [] { seqnum := 2, len := 1 } c8r0.flow

def c8r1 : RxResult :=
  rcvData cfgC8 0 true [] { seqnum := 1, len := 1 } c8r2.flow

/-- C8: when a received data PDU with seqnum s is delivered (deliver rule
holds, pop oracle all-success), the receiver pops off seqq, in ascending
seqnum order, the prefix of held buffers each within max_sdu_gap of the
left window edge threaded past every previous pop (starting from s + 1),
delivers them after the received buffer, stops at the first held buffer
out of the window, and leaves rcv_lwe_priv advanced past the last popped
buffer; and in the S2 scenario (max_sdu_gap = 0, rtx on) receiving
0 then 2 then 1 delivers 0, then 1 followed by 2 from seqq, leaving
rcv_lwe_priv = 3. -/
theorem C8_deliver_pops (cfg : FlowCfg) (now : Nat) (allocOk : Bool)
    (rb : Buf) (f : Flow)
    (hdrf : rb.drf = false)
    (hge : f.dtp.rcv_lwe_priv ≤ rb.seqnum)
    (hnd : ¬dropRule cfg (rb.seqnum - f.dtp.rcv_lwe_priv))
    (hg : rb.seqnum - f.dtp.rcv_lwe_priv ≤ cfg.max_sdu_gap)
    (hsort : (f.dtp.seqq.map Buf.seqnum).Pairwise (· < ·))
    (habove : ∀ b ∈ f.dtp.seqq, rb.seqnum < b.seqnum) :
    (∃ n,
      (rcvData cfg now allocOk [] rb f).flow.dtp.seqq =
        f.dtp.seqq.drop n ∧
      (rcvData cfg now allocOk [] rb f).outcome =
        .delivered (rb :: f.dtp.seqq.take n) ∧
      (rcvData cfg now allocOk [] rb f).flow.dtp.rcv_lwe_priv =
        (f.dtp.seqq.take n).foldl (fun _ b => b.seqnum + 1)
          (rb.seqnum + 1) ∧
      (∀ b, (f.dtp.seqq.take n).head? = some b →
        b.seqnum - (rb.seqnum + 1) ≤ cfg.max_sdu_gap) ∧
      (f.dtp.seqq.take n).Chain'
        (fun a b => b.seqnum - (a.seqnum + 1) ≤ cfg.max_sdu_gap) ∧
      (∀ b, (f.dtp.seqq.drop n).head? = some b →
        cfg.max_sdu_gap <
          b.seqnum -
            (rcvData cfg now allocOk [] rb f).flow.dtp.rcv_lwe_priv)) ∧
    (c8r0.outcome = .delivered [{ seqnum := 0, len := 1 }] ∧
     c8r2.outcome = .toSeqq ∧
     c8r1.outcome =
       .delivered [{ seqnum := 1, len := 1 },
                   { seqnum := 2, len := 1 }] ∧
     c8r1.flow.dtp.rcv_lwe_priv = 3) := by
  rw [rcvData_deliver_eq cfg now allocOk [] rb f hdrf hge hnd hg]
  obtain ⟨e1, e2, e3⟩ := rcvDeliver_fields cfg allocOk rb
    (rxMod cfg now rb f)
  rw [rxMod_seqq] at e1 e2 e3
  obtain ⟨n, i1, i2, i3, i4, i5, i6⟩ := seqq_pop_loop_char
    cfg.max_sdu_gap f.dtp.seqq (rb.seqnum + 1) hsort
    (fun b hb => habove b hb)
  refine ⟨⟨n, ?_, ?_, ?_, i4, i5, ?_⟩, by decide⟩
  · rw [e1, i2]
  · rw [e3, i1]
  · rw [e2, i3]
  · intro b hb
    rw [e2, i3]
    exact i6 b hb

def c8rb : Buf := { seqnum := 0, len := 1 }

theorem C8_deliver_pops_witness :
    ((∃ n,
      (rcvData cfgC8 0 true [] c8rb (flow_init cfgC8)).flow.dtp.seqq =
        (flow_init cfgC8).dtp.seqq.drop n ∧
      (rcvData cfgC8 0 true [] c8rb (flow_init cfgC8)).outcome =
        .delivered (c8rb :: (flow_init cfgC8).dtp.seqq.take n) ∧
      (rcvData cfgC8 0 true [] c8rb
          (flow_init cfgC8)).flow.dtp.rcv_lwe_priv =
        ((flow_init cfgC8).dtp.seqq.take n).foldl
          (fun _ b => b.seqnum + 1) (c8rb.seqnum + 1) ∧
      (∀ b, ((flow_init cfgC8).dtp.seqq.take n).head? = some b →
        b.seqnum - (c8rb.seqnum + 1) ≤ cfgC8.max_sdu_gap) ∧
      ((flow_init cfgC8).dtp.seqq.take n).Chain'
        (fun a b => b.seqnum - (a.seqnum + 1) ≤ cfgC8.max_sdu_gap) ∧
      (∀ b, ((flow_init cfgC8).dtp.seqq.drop n).head? = some b →
        cfgC8.max_sdu_gap <
          b.seqnum -
            (rcvData cfgC8 0 true [] c8rb
              (flow_init cfgC8)).flow.dtp.rcv_lwe_priv)) ∧
    (c8r0.outcome = .delivered [{ seqnum := 0, len := 1 }] ∧
     c8r2.outcome = .toSeqq ∧
     c8r1.outcome =
       .delivered [{ seqnum := 1, len := 1 },
                   { seqnum := 2, len := 1 }] ∧
     c8r1.flow.dtp.rcv_lwe_priv = 3)) :=
  C8_deliver_pops cfgC8 0 true c8rb (flow_init cfgC8) rfl (by decide)
    (by decide) (by decide) (by decide) (by decide)

theorem sv_update_rcv_lwe (cfg : FlowCfg) (ok : Bool) (f : Flow) :
    (sdu_rx_sv_update cfg ok f).1.dtp.rcv_lwe = f.dtp.rcv_lwe := by
  simp only [sdu_rx_sv_update, ctrl_pdu_alloc]
  split_ifs <;> rfl

theorem seqq_push_rcv_lwe (rb : Buf) (f : Flow) :
    (seqq_push rb f).dtp.rcv_lwe = f.dtp.rcv_lwe := by
  simp only [seqq_push]
  split
  · rfl
  · split <;> rfl

theorem seqq_push_rcv_priv (rb : Buf) (f : Flow) :
    (seqq_push rb f).dtp.rcv_lwe_priv = f.dtp.rcv_lwe_priv := by
  simp only [seqq_push]
  split
  · rfl
  · split <;> rfl

theorem rcvDup_rcv_lwe (cfg : FlowCfg) (ok : Bool) (f : Flow) :
    (rcvDup cfg ok f).flow.dtp.rcv_lwe = f.dtp.rcv_lwe := by
  simp only [rcvDup, ctrl_pdu_alloc]
  split_ifs <;> rfl

theorem rcvDup_rcv_priv (cfg : FlowCfg) (ok : Bool) (f : Flow) :
    (rcvDup cfg ok f).flow.dtp.rcv_lwe_priv = f.dtp.rcv_lwe_priv := by
  simp only [rcvDup, ctrl_pdu_alloc]
  split_ifs <;> rfl

theorem rcvDrop_rcv_lwe (cfg : FlowCfg) (ok : Bool) (f : Flow) :
    (rcvDrop cfg ok f).flow.dtp.rcv_lwe = f.dtp.rcv_lwe := by
  simp [rcvDrop, sv_update_rcv_lwe]

theorem rcvDrop_rcv_priv (cfg : FlowCfg) (ok : Bool) (f : Flow) :
    (rcvDrop cfg ok f).flow.dtp.rcv_lwe_priv = f.dtp.rcv_lwe_priv := by
  simp [rcvDrop, sv_update_priv]

theorem rcvHold_rcv_lwe (cfg : FlowCfg) (ok : Bool) (rb : Buf)
    (f : Flow) :
    (rcvHold cfg ok rb f).flow.dtp.rcv_lwe = f.dtp.rcv_lwe := by
  simp [rcvHold, sv_update_rcv_lwe, seqq_push_rcv_lwe]

theorem rcvHold_rcv_priv (cfg : FlowCfg) (ok : Bool) (rb : Buf)
    (f : Flow) :
    (rcvHold cfg ok rb f).flow.dtp.rcv_lwe_priv =
      f.dtp.rcv_lwe_priv := by
  simp [rcvHold, sv_update_priv, seqq_push_rcv_priv]

theorem cwqDrainGo_pres (cfg : FlowCfg) (now : Nat) :
    ∀ (q : List Buf) (al : List Bool) (f : Flow),
      (cwqDrainGo cfg now al q f).1.dtp.rcv_lwe = f.dtp.rcv_lwe ∧
      (cwqDrainGo cfg now al q f).1.dtp.rcv_lwe_priv =
        f.dtp.rcv_lwe_priv ∧
      (cwqDrainGo cfg now al q f).1.dtp.last_ctrl_seq_num_rcvd =
        f.dtp.last_ctrl_seq_num_rcvd := by
  intro q
  induction q with
  | nil =>
    intro al f
    rw [cwqDrainGo_nil]
    exact ⟨rfl, rfl, rfl⟩
  | cons c rest ih =>
    intro al f
    by_cases hstop : f.dtp.snd_rwe ≤ f.dtp.snd_lwe
    · rw [cwqDrainGo_cons_stop hstop]
      exact ⟨rfl, rfl, rfl⟩
    · rw [cwqDrainGo_cons_go hstop]
      obtain ⟨-, -, -, -, -, -, h7, h8, h9⟩ :=
        drainStep_facts cfg now al c f
      obtain ⟨j1, j2, j3⟩ :=
        ih (drainStep cfg now al c f).2 (drainStep cfg now al c f).1
      exact ⟨by rw [j1, h7], by rw [j2, h8], by rw [j3, h9]⟩

theorem ctrlAccept1_pres (cfg : FlowCfg) (now : Nat) (al : List Bool)
    (c : CtrlPdu) (f : Flow) :
    (ctrlAccept1 cfg now al c f).1.dtp.rcv_lwe = f.dtp.rcv_lwe ∧
    (ctrlAccept1 cfg now al c f).1.dtp.rcv_lwe_priv =
      f.dtp.rcv_lwe_priv ∧
    (ctrlAccept1 cfg now al c f).1.dtp.last_ctrl_seq_num_rcvd =
      c.seqnum := by
  by_cases hfc : c.fcBit = true
  · rw [ctrlAccept1_fc cfg now al c f hfc]
    set f1 : Flow :=
      { f with dtp :=
        { f.dtp with last_ctrl_seq_num_rcvd := c.seqnum } } with hf1
    by_cases hlt : c.new_rwe < f1.dtp.snd_rwe
    · rw [fcPhase_ignore cfg now al c.new_rwe f1 hlt]
      exact ⟨rfl, rfl, rfl⟩
    · rw [fcPhase_update cfg now al c.new_rwe f1 hlt]
      obtain ⟨j1, j2, j3⟩ := cwqDrainGo_pres cfg now f1.dtp.cwq al
        { f1 with dtp := { f1.dtp with snd_rwe := c.new_rwe } }
      exact ⟨by rw [j1], by rw [j2], by rw [j3]⟩
  · simp [ctrlAccept1, hfc]

/-- Control-PDU receive never touches the receive window edges. -/
theorem sdu_rx_ctrl_rcv (cfg : FlowCfg) (now : Nat) (al : List Bool)
    (c : CtrlPdu) (f : Flow) :
    (sdu_rx_ctrl cfg now al c f).flow.dtp.rcv_lwe = f.dtp.rcv_lwe ∧
    (sdu_rx_ctrl cfg now al c f).flow.dtp.rcv_lwe_priv =
      f.dtp.rcv_lwe_priv := by
  obtain ⟨p1, p2, -⟩ := ctrlAccept1_pres cfg now al c f
  by_cases hic : c.isCtrl = true
  · by_cases hdup : f.dtp.last_ctrl_seq_num_rcvd ≠ 0 ∧
        c.seqnum ≤ f.dtp.last_ctrl_seq_num_rcvd
    · simp [sdu_rx_ctrl, hic, hdup]
    · by_cases hab : c.ackBit = true
      · cases hsub : c.subtype with
        | ack =>
          rw [sdu_rx_ctrl_accept_ack cfg now al hic hdup hab hsub]
          obtain ⟨-, -, -, -, -, -, -, q8, q9, -⟩ :=
            ackPhase_fields c.ack_nack_seq_num
              (ctrlAccept1 cfg now al c f).1
          refine ⟨?_, ?_⟩ <;> dsimp only
          · rw [q8, p1]
          · rw [q9, p2]
        | nack => simp [sdu_rx_ctrl, hic, hdup, hab, hsub, p1, p2]
        | sack => simp [sdu_rx_ctrl, hic, hdup, hab, hsub, p1, p2]
        | snack => simp [sdu_rx_ctrl, hic, hdup, hab, hsub, p1, p2]
      · have hnab : c.ackBit = false := by
          revert hab
          cases c.ackBit <;> simp
        rw [sdu_rx_ctrl_accept_noack cfg now al hic hdup hnab]
        exact ⟨p1, p2⟩
  · simp [sdu_rx_ctrl, hic]

/-- An accepted control PDU records its seqnum as
last_ctrl_seq_num_rcvd. -/
theorem sdu_rx_ctrl_last (cfg : FlowCfg) (now : Nat) (al : List Bool)
    (c : CtrlPdu) (f : Flow)
    (hacc : (sdu_rx_ctrl cfg now al c f).accepted = true) :
    (sdu_rx_ctrl cfg now al c f).flow.dtp.last_ctrl_seq_num_rcvd =
      c.seqnum := by
  obtain ⟨-, -, p3⟩ := ctrlAccept1_pres cfg now al c f
  by_cases hic : c.isCtrl = true
  · by_cases hdup : f.dtp.last_ctrl_seq_num_rcvd ≠ 0 ∧
        c.seqnum ≤ f.dtp.last_ctrl_seq_num_rcvd
    · exact absurd hacc (by simp [sdu_rx_ctrl, hic, hdup])
    · by_cases hab : c.ackBit = true
      · cases hsub : c.subtype with
        | ack =>
          rw [sdu_rx_ctrl_accept_ack cfg now al hic hdup hab hsub]
          obtain ⟨-, -, -, -, -, -, -, -, -, q10⟩ :=
            ackPhase_fields c.ack_nack_seq_num
              (ctrlAccept1 cfg now al c f).1
          dsimp only
          rw [q10, p3]
        | nack => simp [sdu_rx_ctrl, hic, hdup, hab, hsub, p3]
        | sack => simp [sdu_rx_ctrl, hic, hdup, hab, hsub, p3]
        | snack => simp [sdu_rx_ctrl, hic, hdup, hab, hsub, p3]
      · have hnab : c.ackBit = false := by
          revert hab
          cases c.ackBit <;> simp
        rw [sdu_rx_ctrl_accept_noack cfg now al hic hdup hnab]
        exact p3
  · exact absurd hacc (by simp [sdu_rx_ctrl, hic])

/-- The seqq pop scan never moves the left window edge backwards, as long
as the edge and every queued seqnum stay clear of the wrap of the uint64
subtraction by max_sdu_gap. -/
theorem seqq_pop_loop_mono (gap : Nat) :
    ∀ (l : List Buf) (lwe : Nat),
      lwe + gap < 2 ^ 64 →
      (∀ q ∈ l, q.seqnum + 1 + gap < 2 ^ 64) →
      lwe ≤ (seqq_pop_loop gap l lwe).2.2 := by
  intro l
  induction l with
  | nil =>
    intro lwe _ _
    simp [seqq_pop_loop_nil]
  | cons q rest ih =>
    intro lwe hl hq
    by_cases hc : wsub q.seqnum lwe ≤ gap
    · have hge : lwe ≤ q.seqnum := by
        by_contra hlt
        push_neg at hlt
        have hnw : ¬lwe ≤ q.seqnum := by omega
        have hw : wsub q.seqnum lwe = q.seqnum + (2 ^ 64 - lwe) := by
          simp [wsub, hnw]
        rw [hw] at hc
        omega
      rw [seqq_pop_loop_cons_pop hc]
      dsimp only
      have := ih (q.seqnum + 1)
        (by have := hq q (List.mem_cons_self q rest); omega)
        (fun b hb => hq b (List.mem_cons_of_mem _ hb))
      omega
    · rw [seqq_pop_loop_cons_stop hc]
      exact ih lwe hl (fun b hb => hq b (List.mem_cons_of_mem _ hb))

theorem rcvData_dup_rcv (cfg : FlowCfg) (now : Nat) (ok : Bool)
    (pops : List Bool) (rb : Buf) (f : Flow)
    (hdrf : rb.drf = false)
    (hlt : rb.seqnum < f.dtp.rcv_lwe_priv) :
    (rcvData cfg now ok pops rb f).flow.dtp.rcv_lwe = f.dtp.rcv_lwe ∧
    (rcvData cfg now ok pops rb f).flow.dtp.rcv_lwe_priv =
      f.dtp.rcv_lwe_priv := by
  by_cases hdt : cfg.dtcp_present = true <;>
    simp [rcvData, hdrf, hdt, hlt, rcvDup_rcv_lwe, rcvDup_rcv_priv]

theorem rcvData_drop_rcv (cfg : FlowCfg) (now : Nat) (ok : Bool)
    (pops : List Bool) (rb : Buf) (f : Flow)
    (hdrf : rb.drf = false) (hge : f.dtp.rcv_lwe_priv ≤ rb.seqnum)
    (hd : dropRule cfg (rb.seqnum - f.dtp.rcv_lwe_priv)) :
    (rcvData cfg now ok pops rb f).flow.dtp.rcv_lwe = f.dtp.rcv_lwe ∧
    (rcvData cfg now ok pops rb f).flow.dtp.rcv_lwe_priv =
      f.dtp.rcv_lwe_priv := by
  have hw : wsub rb.seqnum f.dtp.rcv_lwe_priv =
      rb.seqnum - f.dtp.rcv_lwe_priv := by simp [wsub, hge]
  have hnlt : ¬rb.seqnum < f.dtp.rcv_lwe_priv := not_lt.mpr hge
  by_cases hdt : cfg.dtcp_present = true <;>
  by_cases hmx : f.dtp.max_seq_num_rcvd < rb.seqnum <;>
    simp [rcvData, hdrf, hnlt, hw, hdt, hmx, hd, rcvDrop_rcv_lwe,
      rcvDrop_rcv_priv]

theorem rcvData_hold_rcv (cfg : FlowCfg) (now : Nat) (ok : Bool)
    (pops : List Bool) (rb : Buf) (f : Flow)
    (hdrf : rb.drf = false) (hge : f.dtp.rcv_lwe_priv ≤ rb.seqnum)
    (hnd : ¬dropRule cfg (rb.seqnum - f.dtp.rcv_lwe_priv))
    (hng : ¬rb.seqnum - f.dtp.rcv_lwe_priv ≤ cfg.max_sdu_gap) :
    (rcvData cfg now ok pops rb f).flow.dtp.rcv_lwe = f.dtp.rcv_lwe ∧
    (rcvData cfg now ok pops rb f).flow.dtp.rcv_lwe_priv =
      f.dtp.rcv_lwe_priv := by
  have hw : wsub rb.seqnum f.dtp.rcv_lwe_priv =
      rb.seqnum - f.dtp.rcv_lwe_priv := by simp [wsub, hge]
  have hnlt : ¬rb.seqnum < f.dtp.rcv_lwe_priv := not_lt.mpr hge
  by_cases hdt : cfg.dtcp_present = true <;>
  by_cases hmx : f.dtp.max_seq_num_rcvd < rb.seqnum <;>
    simp [rcvData, hdrf, hnlt, hw, hdt, hmx, hnd, hng, rcvHold_rcv_lwe,
      rcvHold_rcv_priv]

theorem rcvData_drf_rcv (cfg : FlowCfg) (now : Nat) (ok : Bool)
    (pops : List Bool) (rb : Buf) (f : Flow) (hdrf : rb.drf = true) :
    (rcvData cfg now ok pops rb f).flow.dtp.rcv_lwe = rb.seqnum + 1 ∧
    (rcvData cfg now ok pops rb f).flow.dtp.rcv_lwe_priv =
      rb.seqnum + 1 := by
  by_cases hdt : cfg.dtcp_present = true <;>
    simp [rcvData, hdrf, hdt, rcvDrf, sv_update_rcv_lwe, sv_update_priv]

theorem rcvDeliver_rcv_or (cfg : FlowCfg) (ok : Bool) (rb : Buf)
    (f : Flow) :
    (rcvDeliver cfg ok [] rb f).flow.dtp.rcv_lwe = f.dtp.rcv_lwe ∨
    (rcvDeliver cfg ok [] rb f).flow.dtp.rcv_lwe =
      (rcvDeliver cfg ok [] rb f).flow.dtp.rcv_lwe_priv := by
  by_cases hup : cfg.hasUpper = true <;>
    simp [rcvDeliver, seqq_pop_many, hup, sv_update_rcv_lwe,
      sv_update_priv, takeOra]

def cfgC1 : FlowCfg := {}

def c1rbA : Buf := { seqnum := 4, len := 1, drf := true }

def c1rbB : Buf := { seqnum := 0, len := 1, drf := true }

def c1f1 : Flow := (rcvData cfgC1 0 true [] c1rbA (flow_init cfgC1)).flow

def c1f2 : Flow := (rcvData cfgC1 0 true [] c1rbB c1f1).flow

/-- Counterexample to the original C1: from a reachable state, one more
data-PDU receive (the DRF case, normal.c line 1006) strictly decreases
both rcv_lwe and rcv_lwe_priv. -/
theorem C1_counterexample :
    Reachable cfgC1 c1f1 ∧ Step cfgC1 c1f1 c1f2 ∧
    c1f2.dtp.rcv_lwe < c1f1.dtp.rcv_lwe ∧
    c1f2.dtp.rcv_lwe_priv < c1f1.dtp.rcv_lwe_priv :=
  ⟨Relation.ReflTransGen.single
      (Step.dataRx 0 true [] c1rbA (flow_init cfgC1)),
   Step.dataRx 0 true [] c1rbB c1f1, by decide, by decide⟩

/-- C1 (amended): control-PDU receive leaves rcv_lwe and rcv_lwe_priv
unchanged; a non-DRF data-PDU receive keeps rcv_lwe <= rcv_lwe_priv and
never decreases either, provided the received and held seqnums stay
clear of the uint64 wrap by max_sdu_gap; a data-PDU receive with the DRF
flag set resets both edges to seqnum + 1 (which may decrease them); and
sdu_rx_consumed sets rcv_lwe to sn + 1 leaving rcv_lwe_priv unchanged,
so it is monotone exactly when rcv_lwe <= sn + 1. -/
theorem C1_amended_rcv_edges (cfg : FlowCfg) (now : Nat) (ok : Bool)
    (al : List Bool) (c : CtrlPdu) (rb : Buf) (sn : Nat) (f : Flow) :
    ((sdu_rx_ctrl cfg now al c f).flow.dtp.rcv_lwe = f.dtp.rcv_lwe ∧
     (sdu_rx_ctrl cfg now al c f).flow.dtp.rcv_lwe_priv =
       f.dtp.rcv_lwe_priv) ∧
    (rb.drf = false →
      f.dtp.rcv_lwe ≤ f.dtp.rcv_lwe_priv →
      rb.seqnum + 1 + cfg.max_sdu_gap < 2 ^ 64 →
      (∀ q ∈ f.dtp.seqq, q.seqnum + 1 + cfg.max_sdu_gap < 2 ^ 64) →
      f.dtp.rcv_lwe ≤ (rcvData cfg now ok [] rb f).flow.dtp.rcv_lwe ∧
      f.dtp.rcv_lwe_priv ≤
        (rcvData cfg now ok [] rb f).flow.dtp.rcv_lwe_priv ∧
      (rcvData cfg now ok [] rb f).flow.dtp.rcv_lwe ≤
        (rcvData cfg now ok [] rb f).flow.dtp.rcv_lwe_priv) ∧
    (rb.drf = true →
      (rcvData cfg now ok [] rb f).flow.dtp.rcv_lwe = rb.seqnum + 1 ∧
      (rcvData cfg now ok [] rb f).flow.dtp.rcv_lwe_priv =
        rb.seqnum + 1) ∧
    ((sdu_rx_consumed cfg ok sn f).1.dtp.rcv_lwe = sn + 1 ∧
     (sdu_rx_consumed cfg ok sn f).1.dtp.rcv_lwe_priv =
       f.dtp.rcv_lwe_priv) := by
  refine ⟨sdu_rx_ctrl_rcv cfg now al c f, ?_, ?_, ?_, ?_⟩
  · intro hdrf hle hnw1 hnw2
    by_cases hlt : rb.seqnum < f.dtp.rcv_lwe_priv
    · obtain ⟨u1, u2⟩ := rcvData_dup_rcv cfg now ok [] rb f hdrf hlt
      rw [u1, u2]
      exact ⟨le_refl _, le_refl _, hle⟩
    · have hge : f.dtp.rcv_lwe_priv ≤ rb.seqnum := not_lt.mp hlt
      by_cases hd : dropRule cfg (rb.seqnum - f.dtp.rcv_lwe_priv)
      · obtain ⟨u1, u2⟩ := rcvData_drop_rcv cfg now ok [] rb f hdrf
          hge hd
        rw [u1, u2]
        exact ⟨le_refl _, le_refl _, hle⟩
      · by_cases hg : rb.seqnum - f.dtp.rcv_lwe_priv ≤ cfg.max_sdu_gap
        · rw [rcvData_deliver_eq cfg now ok [] rb f hdrf hge hd hg]
          obtain ⟨-, e2, -⟩ := rcvDeliver_fields cfg ok rb
            (rxMod cfg now rb f)
          rw [rxMod_seqq] at e2
          have hmono := seqq_pop_loop_mono cfg.max_sdu_gap f.dtp.seqq
            (rb.seqnum + 1) (by omega) hnw2
          have hpriv : f.dtp.rcv_lwe_priv <
              (rcvDeliver cfg ok [] rb
                (rxMod cfg now rb f)).flow.dtp.rcv_lwe_priv := by
            rw [e2]
            omega
          rcases rcvDeliver_rcv_or cfg ok rb (rxMod cfg now rb f)
            with hor | hor
          · rw [hor]
            have hrm : (rxMod cfg now rb f).dtp.rcv_lwe =
                f.dtp.rcv_lwe := by
              simp only [rxMod]
              split <;> split <;> rfl
            rw [hrm]
            exact ⟨le_refl _, le_of_lt hpriv, by omega⟩
          · rw [hor]
            exact ⟨by omega, le_of_lt hpriv, le_refl _⟩
        · obtain ⟨u1, u2⟩ := rcvData_hold_rcv cfg now ok [] rb f hdrf
            hge hd hg
          rw [u1, u2]
          exact ⟨le_refl _, le_refl _, hle⟩
  · exact rcvData_drf_rcv cfg now ok [] rb f
  · simp [sdu_rx_consumed, sv_update_rcv_lwe]
  · simp [sdu_rx_consumed, sv_update_priv]

def c1wrb : Buf := { seqnum := 2, len := 1 }

def c1wpdu : CtrlPdu := { isCtrl := true, seqnum := 1 }

theorem C1_amended_rcv_edges_witness :
    ((sdu_rx_ctrl cfgC8 0 [] c1wpdu c1f1).flow.dtp.rcv_lwe =
        c1f1.dtp.rcv_lwe ∧
      (sdu_rx_ctrl cfgC8 0 [] c1wpdu c1f1).flow.dtp.rcv_lwe_priv =
        c1f1.dtp.rcv_lwe_priv) ∧
    (c1f1.dtp.rcv_lwe ≤
        (rcvData cfgC8 0 true [] c1wrb c1f1).flow.dtp.rcv_lwe ∧
      c1f1.dtp.rcv_lwe_priv ≤
        (rcvData cfgC8 0 true [] c1wrb c1f1).flow.dtp.rcv_lwe_priv ∧
      (rcvData cfgC8 0 true [] c1wrb c1f1).flow.dtp.rcv_lwe ≤
        (rcvData cfgC8 0 true [] c1wrb c1f1).flow.dtp.rcv_lwe_priv) ∧
    ((sdu_rx_consumed cfgC8 true 5 c1f1).1.dtp.rcv_lwe = 5 + 1 ∧
      (sdu_rx_consumed cfgC8 true 5 c1f1).1.dtp.rcv_lwe_priv =
        c1f1.dtp.rcv_lwe_priv) :=
  ⟨(C1_amended_rcv_edges cfgC8 0 true [] c1wpdu c1wrb 5 c1f1).1,
   (C1_amended_rcv_edges cfgC8 0 true [] c1wpdu c1wrb 5 c1f1).2.1 rfl
     (by decide) (by decide) (by decide),
   (C1_amended_rcv_edges cfgC8 0 true [] c1wpdu c1wrb 5 c1f1).2.2.2⟩

def cfgC2 : FlowCfg :=
  { dtcp_present := true, flow_control := true, fc_win := true }

def c2pduA : CtrlPdu :=
  { isCtrl := true, fcBit := true, seqnum := 0, new_rwe := 1 }

def c2pduB : CtrlPdu :=
  { isCtrl := true, fcBit := true, seqnum := 0, new_rwe := 2 }

def c2f1 : Flow :=
  (sdu_rx_ctrl cfgC2 0 [] c2pduA (flow_init cfgC2)).flow

/-- Counterexample to the original C2: a second control PDU carrying the
same ctrl.seqnum 0 as the immediately preceding one is accepted again
(the duplicate check at normal.c line 826 is skipped while
last_ctrl_seq_num_rcvd == 0), and re-processing its FC field moves the
DTP state, so the state after both differs from the state after the
first alone. -/
theorem C2_counterexample :
    Reachable cfgC2 c2f1 ∧
    c2pduB.seqnum = c2pduA.seqnum ∧
    (sdu_rx_ctrl cfgC2 0 [] c2pduA (flow_init cfgC2)).accepted =
      true ∧
    (sdu_rx_ctrl cfgC2 0 [] c2pduB c2f1).accepted = true ∧
    (sdu_rx_ctrl cfgC2 0 [] c2pduB c2f1).flow ≠ c2f1 :=
  ⟨Relation.ReflTransGen.single
      (Step.ctrlRx 0 [] c2pduA (flow_init cfgC2)),
   rfl, by decide, by decide, by decide⟩

/-- C2 (amended): a control PDU repeating the seqnum of the immediately
preceding accepted control PDU is dropped by the duplicate check before
any FC or ACK processing, leaving the state exactly as after the first
alone — provided that shared seqnum is nonzero (the first control
sequence number the peer assigns under next_snd_ctl_seq starting at 0 is
exempt from the duplicate check). -/
theorem C2_amended_dup_drop (cfg : FlowCfg) (now now2 : Nat)
    (al al2 : List Bool) (c1 c2 : CtrlPdu) (f : Flow)
    (hacc : (sdu_rx_ctrl cfg now al c1 f).accepted = true)
    (hic2 : c2.isCtrl = true)
    (hs : c2.seqnum = c1.seqnum) (hnz : c1.seqnum ≠ 0) :
    sdu_rx_ctrl cfg now2 al2 c2 (sdu_rx_ctrl cfg now al c1 f).flow =
      { flow := (sdu_rx_ctrl cfg now al c1 f).flow, sent := [],
        accepted := false } := by
  have hl := sdu_rx_ctrl_last cfg now al c1 f hacc
  set g : Flow := (sdu_rx_ctrl cfg now al c1 f).flow with hg
  have hdup : g.dtp.last_ctrl_seq_num_rcvd ≠ 0 ∧
      c2.seqnum ≤ g.dtp.last_ctrl_seq_num_rcvd :=
    ⟨by rw [hl]; exact hnz, by rw [hl, hs]⟩
  simp [sdu_rx_ctrl, hic2, hdup]

def c2dpduA : CtrlPdu :=
  { isCtrl := true, fcBit := true, seqnum := 1, new_rwe := 1 }

def c2dpduB : CtrlPdu :=
  { isCtrl := true, fcBit := true, seqnum := 1, new_rwe := 2 }

theorem C2_amended_dup_drop_witness :
    sdu_rx_ctrl cfgC2 0 [] c2dpduB
        (sdu_rx_ctrl cfgC2 0 [] c2dpduA (flow_init cfgC2)).flow =
      { flow := (sdu_rx_ctrl cfgC2 0 [] c2dpduA
          (flow_init cfgC2)).flow,
        sent := [], accepted := false } :=
  C2_amended_dup_drop cfgC2 0 0 [] [] c2dpduA c2dpduB (flow_init cfgC2)
    (by decide) rfl rfl (by decide)

end Rlite